import Mathlib

/-!
# prometheusfiber: request-metrics middleware

A shallow embedding of `middleware.go` (package `prometheusfiber`) and the
properties of it that the specification states.

Conventions of the embedding

* A Go `[]byte` is a list of bytes and a Go `int` an `Int`. The only `int`
  arithmetic in the package adds lengths of buffers that are all held in
  memory at once, so the sums stay far below `2^63`.
* A Go `string` that the package only compares or hands to the registry
  (configuration, metric names, the request path) is a `String`. A Go
  `string` that becomes a label value (route method, host, route pattern,
  the decimal status) is a `GoString`, its bytes: the metrics library
  refuses label values that are not valid UTF-8, and the host is whatever
  bytes the client sent.
* A pointer that may be `nil` is an `Option`; dereferencing `none` is the
  panic `Panic.nilPointer`.
* Mutable objects (the four instruments, the fiber context, the process-wide
  registry) are passed and returned explicitly.
* Collaborators outside the package are modelled at their interface: the
  rest of the handler chain (`ctx.Next()`) is a function on the context that
  returns the error value (a chain that returns; a panic downstream unwinds
  through the middleware before any update), the registry is a function
  `register` that either accepts a collector or refuses it, the clock is the
  duration that `time.Since` yields, and a metric vector is the table of its
  children keyed by label values. Counts are natural numbers.
* The endpoint binder (`SetMetricsPath`, `runServer`, `Use`) starts a
  listener and is not part of the embedding.
-/

namespace prometheusfiber

/-! ## Package constants (middleware.go 15-31) -/

def defaultMetricPath : String := "/metrics"

def defaultSubSystem : String := "fiber"

/-- `KB float64 = 1 << (10 * iota)` with `iota = 1`. The float64 constants of
the package are exactly representable, so they are kept as rationals. -/
def KB : ℚ := ((1 <<< (10 * 1) : ℕ) : ℚ)

/-- `MB`, the next constant of the same block (`iota = 2`). -/
def MB : ℚ := ((1 <<< (10 * 2) : ℕ) : ℚ)

/-- `reqDurBuckets = prometheus.DefBuckets`, the latency ladder of the
metrics library. -/
def reqDurBuckets : List ℚ := [0.005, 0.01, 0.025, 0.05, 0.1, 0.25, 0.5, 1, 2.5, 5, 10]

/-- Buckets for request size. -/
def reqSizeBuckets : List ℚ :=
  [1.0 * KB, 2.0 * KB, 5.0 * KB, 10.0 * KB, 100 * KB, 500 * KB, 1.0 * MB, 2.5 * MB, 5.0 * MB,
    10.0 * MB]

/-- Buckets for response size. -/
def resSizeBuckets : List ℚ :=
  [1.0 * KB, 2.0 * KB, 5.0 * KB, 10.0 * KB, 100 * KB, 500 * KB, 1.0 * MB, 2.5 * MB, 5.0 * MB,
    10.0 * MB]

/-! ## Metric definitions (middleware.go 33-89) -/

/-- Go `Metric`. The field `Type` is spelled `Typ` (`Type` is reserved). The
field `Collector` is left out: the package only ever writes it (line 334) and
never reads it. -/
structure Metric where
  ID : String
  Name : String
  Description : String
  Typ : String
  Args : List String
  Buckets : List ℚ

def reqCount : Metric :=
  { ID := "reqCount"
    Name := "requests_total"
    Description := "Total number of requests by status code and HTTP method"
    Typ := "counter_vec"
    Args := ["code", "method", "host", "url"]
    Buckets := [] }

def reqDur : Metric :=
  { ID := "reqDur"
    Name := "request_duration_seconds"
    Description := "The HTTP request latencies in seconds."
    Args := ["code", "method", "url"]
    Typ := "histogram_vec"
    Buckets := reqDurBuckets }

def respSize : Metric :=
  { ID := "respSize"
    Name := "response_size_bytes"
    Description := "The HTTP response sizes in bytes."
    Args := ["code", "method", "url"]
    Typ := "histogram_vec"
    Buckets := resSizeBuckets }

def reqSize : Metric :=
  { ID := "reqSize"
    Name := "request_size_bytes"
    Description := "The HTTP request sizes in bytes."
    Args := ["code", "method", "url"]
    Typ := "histogram_vec"
    Buckets := reqSizeBuckets }

/-- A `*Metric`. The package only ever holds the addresses of its four
package-level metric variables, and `registerMetrics` switches on the
address, so a pointer is one of four tags. -/
inductive MetricRef where
  | reqCount
  | reqDur
  | respSize
  | reqSize
  deriving DecidableEq, Repr

/-- The metric a pointer points to. -/
def MetricRef.deref : MetricRef → Metric
  | .reqCount => prometheusfiber.reqCount
  | .reqDur => prometheusfiber.reqDur
  | .respSize => prometheusfiber.respSize
  | .reqSize => prometheusfiber.reqSize

def defaultMetrics : List MetricRef := [.reqCount, .reqDur, .respSize, .reqSize]

/-! ## Go strings -/

/-- A Go `[]byte`. -/
abbrev Bytes := List (Fin 256)

/-- A Go `string`: its bytes, which need not be valid UTF-8. -/
abbrev GoString := List (Fin 256)

/-- The scan of `utf8.ValidString`. `need` is the number of continuation
bytes the rune being read still lacks, and `lo`, `hi` bound the next of
them (the accept range of the lead byte, then `80..BF`). Lead bytes `C0`,
`C1` and `F5..FF` are refused, and the accept ranges of `E0`, `ED`, `F0` and
`F4` exclude overlong forms, surrogates and values above U+10FFFF. -/
def validFrom : Nat → Nat → Nat → GoString → Bool
  | 0, _, _, [] => true
  | _ + 1, _, _, [] => false
  | 0, _, _, b :: rest =>
    if b.val < 0x80 then validFrom 0 0x80 0xBF rest
    else if b.val < 0xC2 then false
    else if b.val < 0xE0 then validFrom 1 0x80 0xBF rest
    else if b.val = 0xE0 then validFrom 2 0xA0 0xBF rest
    else if b.val = 0xED then validFrom 2 0x80 0x9F rest
    else if b.val < 0xF0 then validFrom 2 0x80 0xBF rest
    else if b.val = 0xF0 then validFrom 3 0x90 0xBF rest
    else if b.val < 0xF4 then validFrom 3 0x80 0xBF rest
    else if b.val = 0xF4 then validFrom 3 0x80 0x8F rest
    else false
  | need + 1, lo, hi, b :: rest =>
    if lo ≤ b.val ∧ b.val ≤ hi then validFrom need 0x80 0xBF rest else false

/-- `utf8.ValidString`: the bytes are a sequence of well-formed UTF-8
encodings. -/
def ValidString (s : GoString) : Bool := validFrom 0 0x80 0xBF s

/-- The UTF-8 encoding of one character. -/
def encodeChar (c : Char) : List (Fin 256) :=
  let n := c.toNat
  if n < 0x80 then [Fin.ofNat n]
  else if n < 0x800 then [Fin.ofNat (0xC0 + n / 64), Fin.ofNat (0x80 + n % 64)]
  else if n < 0x10000 then
    [Fin.ofNat (0xE0 + n / 4096), Fin.ofNat (0x80 + n / 64 % 64), Fin.ofNat (0x80 + n % 64)]
  else
    [Fin.ofNat (0xF0 + n / 262144), Fin.ofNat (0x80 + n / 4096 % 64),
      Fin.ofNat (0x80 + n / 64 % 64), Fin.ofNat (0x80 + n % 64)]

/-- The Go string a string literal denotes: the UTF-8 encoding of its
characters. -/
def GoString.ofString (s : String) : GoString := (s.data.map encodeChar).flatten

/-! ## The metrics library at its interface -/

/-- The run-time failures the package can hit. -/
inductive Panic where
  /-- a method called through a `nil` pointer or a `nil` interface -/
  | nilPointer
  /-- `WithLabelValues` called with a number of values different from the
  number of label names of the vector -/
  | labelCardinality
  /-- `WithLabelValues` called with a value that is not valid UTF-8 -/
  | invalidLabelValue
  /-- a failed type assertion `x.(*T)` -/
  | typeAssertion
  deriving DecidableEq, Repr

/-- A value handed to `Observe`: the float64 quotient
`float64(num) / float64(den)`, kept as the two integers it is computed
from. -/
structure Sample where
  num : Int
  den : Int
  deriving DecidableEq, Repr

/-- `*prometheus.CounterVec`: name, help, label names and the children
created so far, each with its label values and its count. -/
structure CounterVec where
  fqName : String
  help : String
  labelNames : List String
  children : List (List GoString × Nat)

/-- `*prometheus.HistogramVec`: as `CounterVec`, with the bucket boundaries,
and each child holding the values observed so far (newest first). -/
structure HistogramVec where
  fqName : String
  help : String
  labelNames : List String
  buckets : List ℚ
  children : List (List GoString × List Sample)

/-- `prometheus.Collector`, for the eight kinds `NewMetric` builds. -/
inductive Collector where
  | counterVec (c : CounterVec)
  | counter (fqName help : String)
  | gaugeVec (fqName help : String) (labelNames : List String)
  | gauge (fqName help : String)
  | histogramVec (h : HistogramVec)
  | histogram (fqName help : String) (buckets : List ℚ)
  | summaryVec (fqName help : String) (labelNames : List String)
  | summary (fqName help : String)

/-- `prometheus.BuildFQName("", subsystem, name)`, the name an `Opts` value
without namespace gets. -/
def BuildFQName (subsystem name : String) : String :=
  if name = "" then ""
  else if subsystem ≠ "" then subsystem ++ "_" ++ name
  else name

/-- The fully-qualified name of a collector. -/
def Collector.fqName : Collector → String
  | .counterVec c => c.fqName
  | .counter n _ => n
  | .gaugeVec n _ _ => n
  | .gauge n _ => n
  | .histogramVec h => h.fqName
  | .histogram n _ _ => n
  | .summaryVec n _ _ => n
  | .summary n _ => n

/-- The child stored under the label values `lvs`, if it exists. -/
def getChild {β : Type} (lvs : List GoString) : List (List GoString × β) → Option β
  | [] => none
  | (k, v) :: rest => if k = lvs then some v else getChild lvs rest

/-- Get-or-create the child under `lvs` (a new child starts at `init`) and
apply `f` to it. -/
def updateChild {β : Type} (lvs : List GoString) (init : β) (f : β → β) :
    List (List GoString × β) → List (List GoString × β)
  | [] => [(lvs, f init)]
  | (k, v) :: rest =>
    if k = lvs then (k, f v) :: rest else (k, v) :: updateChild lvs init f rest

/-- The check `WithLabelValues` makes on its arguments before it looks up the
child (`validateLabelValues`): first the number of values against the number
of label names, then every value with `utf8.ValidString`. A failed check
makes `WithLabelValues` panic. -/
def validateLabelValues (vals : List GoString) (expectedNumberOfValues : Nat) :
    Except Panic Unit :=
  if vals.length ≠ expectedNumberOfValues then .error .labelCardinality
  else if vals.all ValidString then .ok ()
  else .error .invalidLabelValue

/-- `c.WithLabelValues(lvs...).Inc()`: panics when the label values are
refused, else adds one to the child. -/
def CounterVec.WithLabelValuesInc (c : CounterVec) (lvs : List GoString) :
    Except Panic CounterVec :=
  match validateLabelValues lvs c.labelNames.length with
  | .error p => .error p
  | .ok () => .ok { c with children := updateChild lvs 0 (fun n => n + 1) c.children }

/-- `h.WithLabelValues(lvs...).Observe(v)`: panics when the label values are
refused, else records `v` in the child. -/
def HistogramVec.WithLabelValuesObserve (h : HistogramVec) (lvs : List GoString) (v : Sample) :
    Except Panic HistogramVec :=
  match validateLabelValues lvs h.labelNames.length with
  | .error p => .error p
  | .ok () => .ok { h with children := updateChild lvs [] (fun obs => v :: obs) h.children }

/-- The value of the counter at label values `lvs` (0 when no such child). -/
def CounterVec.value (c : CounterVec) (lvs : List GoString) : Nat :=
  (getChild lvs c.children).getD 0

/-- The observation count (`_count`) of the histogram at label values `lvs`. -/
def HistogramVec.count (h : HistogramVec) (lvs : List GoString) : Nat :=
  ((getChild lvs h.children).getD []).length

/-- `strconv.Itoa`: the decimal representation of an `int`. -/
def Itoa (i : Int) : GoString := GoString.ofString (Int.repr i)

/-! ## Options (middleware.go 106-149) -/

structure Options where
  SubSystem : String
  MetricPath : String
  Skip : List String

/-- Go `Option`, a function that edits an `Options` value in place. -/
abbrev Opt := Options → Options

/-- Defines subsystem. -/
def WithSubSystem (subsystem : String) : Opt :=
  fun o => { o with SubSystem := subsystem }

/-- Defines the path where metrics will be published. -/
def WithMetricPath (path : String) : Opt :=
  fun o => { o with MetricPath := path }

/-- Will skip urls. -/
def WithSkipURL (urls : List String) : Opt :=
  fun o => { o with Skip := urls }

/-- Factory function to generate `Options`. -/
def NewOptions (opts : List Opt) : Options :=
  opts.foldl (fun options o => o options)
    { SubSystem := defaultSubSystem, MetricPath := defaultMetricPath, Skip := [] }

/-! ## Prometheus (middleware.go 91-104, 151-248, 317-336) -/

/-- Go `Prometheus`. The four instrument handles are pointers and start out
`nil`. The field `router` (a `*fiber.App` used only by the endpoint binder)
is left out. -/
structure Prometheus where
  reqCount : Option CounterVec
  reqDur : Option HistogramVec
  respSize : Option HistogramVec
  reqSize : Option HistogramVec
  listenAddress : String
  metricsList : List MetricRef
  metricsPath : String
  subsystem : String
  skip : List String

/-- Factory function to create an individual metric; `none` is the `nil`
collector an unknown `Type` leaves. -/
def NewMetric (m : Metric) (subsystem : String) : Option Collector :=
  if m.Typ = "counter_vec" then
    some (.counterVec
      { fqName := BuildFQName subsystem m.Name, help := m.Description, labelNames := m.Args,
        children := [] })
  else if m.Typ = "counter" then
    some (.counter (BuildFQName subsystem m.Name) m.Description)
  else if m.Typ = "gauge_vec" then
    some (.gaugeVec (BuildFQName subsystem m.Name) m.Description m.Args)
  else if m.Typ = "gauge" then
    some (.gauge (BuildFQName subsystem m.Name) m.Description)
  else if m.Typ = "histogram_vec" then
    some (.histogramVec
      { fqName := BuildFQName subsystem m.Name, help := m.Description, labelNames := m.Args,
        buckets := m.Buckets, children := [] })
  else if m.Typ = "histogram" then
    some (.histogram (BuildFQName subsystem m.Name) m.Description m.Buckets)
  else if m.Typ = "summary_vec" then
    some (.summaryVec (BuildFQName subsystem m.Name) m.Description m.Args)
  else if m.Typ = "summary" then
    some (.summary (BuildFQName subsystem m.Name) m.Description)
  else none

/-- The loop of `registerMetrics` over the rest of `ps.metricsList`.
`register reg c` is `prometheus.Register(c)` on the registry state `reg`:
`none` when it returns an error, else the new registry state. A refused
registration executes `return`, which leaves the function. -/
def registerMetricsLoop {σ : Type} (register : σ → Collector → Option σ) :
    List MetricRef → σ → Prometheus → Except Panic (σ × Prometheus)
  | [], reg, ps => .ok (reg, ps)
  | metricDef :: rest, reg, ps =>
    match NewMetric metricDef.deref ps.subsystem with
    | none => .error .nilPointer
    | some metric =>
      match register reg metric with
      | none => .ok (reg, ps)
      | some reg1 =>
        match metricDef, metric with
        | .reqCount, .counterVec c =>
          registerMetricsLoop register rest reg1 { ps with reqCount := some c }
        | .reqDur, .histogramVec h =>
          registerMetricsLoop register rest reg1 { ps with reqDur := some h }
        | .respSize, .histogramVec h =>
          registerMetricsLoop register rest reg1 { ps with respSize := some h }
        | .reqSize, .histogramVec h =>
          registerMetricsLoop register rest reg1 { ps with reqSize := some h }
        | _, _ => .error .typeAssertion

/-- Registers the metrics of `ps.metricsList` on the registry. -/
def registerMetrics {σ : Type} (register : σ → Collector → Option σ) (reg : σ)
    (ps : Prometheus) : Except Panic (σ × Prometheus) :=
  registerMetricsLoop register ps.metricsList reg ps

/-- Factory function for prometheus. -/
def NewPrometheus {σ : Type} (register : σ → Collector → Option σ) (reg : σ)
    (opts : List Opt) : Except Panic (σ × Prometheus) :=
  let options := NewOptions opts
  let metricsList := [] ++ defaultMetrics
  let p : Prometheus :=
    { reqCount := none, reqDur := none, respSize := none, reqSize := none,
      listenAddress := "",
      metricsList := metricsList,
      metricsPath := options.MetricPath,
      subsystem := options.SubSystem,
      skip := options.Skip }
  registerMetrics register reg p

/-- The default registry seen through the names it holds: registering a
collector is refused when a collector of the same fully-qualified name is
already registered. -/
def RegisterByName (reg : List String) (c : Collector) : Option (List String) :=
  if c.fqName ∈ reg then none else some (c.fqName :: reg)

/-! ## The fiber context at its interface -/

/-- `*fasthttp.Request`: the body and the key/value pairs `Header.VisitAll`
visits, in visiting order. -/
structure Request where
  Body : Bytes
  Header : List (Bytes × Bytes)

/-- `*fasthttp.Response`: status code, body and the header pairs
`Header.VisitAll` visits. -/
structure Response where
  StatusCode : Int
  Body : Bytes
  Header : List (Bytes × Bytes)

/-- `Header.VisitAll(f)`: calls `f` on every key/value pair in turn; the
variable the closure captures is threaded through as `s`. -/
def VisitAll {σ : Type} (header : List (Bytes × Bytes)) (f : Bytes → Bytes → σ → σ) (s : σ) : σ :=
  header.foldl (fun acc kv => f kv.1 kv.2 acc) s

/-- `*fiber.Route`, the fields the middleware reads. -/
structure Route where
  Method : GoString
  Path : GoString

/-- `*fiber.Error`. -/
structure FiberError where
  Code : Int
  Message : String

/-- A non-nil Go `error`: an interface value that holds a `*fiber.Error`,
which may itself be a `nil` pointer (`none`), or a value of any other
type. -/
inductive GoError where
  | fiber (e : Option FiberError)
  | other (msg : String)

/-- `*fiber.Ctx`, through the accessors the middleware calls. -/
structure Ctx where
  Path : String
  Hostname : GoString
  Route : Route
  Request : Request
  Response : Response

/-- `ctx.Next()`: the rest of the handler chain. It may rewrite the context
(matched route, response, ...) and returns `nil` (`none`) or an error. -/
abbrev Handler := Ctx → Ctx × Option GoError

/-- `fiber.StatusInternalServerError`. -/
def StatusInternalServerError : Int := 500

/-- `time.Second` as a `time.Duration` (nanoseconds). -/
def Second : Int := 1000000000

/-! ## Size estimators (middleware.go 338-354) -/

/-- Calculates size of the request body. -/
def computeApproximateRequestSize (r : Request) : Int :=
  let size : Int := r.Body.length + 2
  VisitAll r.Header (fun key value size => size + (key.length + value.length + 2)) size

/-- Calculates size of the response body. -/
def computeApproximateResponseSize (r : Response) : Int :=
  let size : Int := r.Body.length + 2
  VisitAll r.Header (fun key value size => size + (key.length + value.length + 2)) size

/-! ## The middleware (middleware.go 250-288) -/

/-- How a call of `Middleware` ends. -/
inductive Outcome where
  /-- it returned the error value `err` (`none` is `nil`) -/
  | returned (err : Option GoError)
  /-- it panicked -/
  | panicked (p : Panic)

/-- The state a call of `Middleware` leaves and how it ended. -/
structure Result where
  ps : Prometheus
  ctx : Ctx
  out : Outcome

/-- `ps.reqDur.WithLabelValues(lvs...).Observe(v)` through the handle. -/
def Prometheus.observeReqDur (ps : Prometheus) (lvs : List GoString) (v : Sample) :
    Except Panic Prometheus :=
  match ps.reqDur with
  | none => .error .nilPointer
  | some h => (h.WithLabelValuesObserve lvs v).map (fun h1 => { ps with reqDur := some h1 })

/-- `ps.reqCount.WithLabelValues(lvs...).Inc()` through the handle. -/
def Prometheus.incReqCount (ps : Prometheus) (lvs : List GoString) :
    Except Panic Prometheus :=
  match ps.reqCount with
  | none => .error .nilPointer
  | some c => (c.WithLabelValuesInc lvs).map (fun c1 => { ps with reqCount := some c1 })

/-- `ps.reqSize.WithLabelValues(lvs...).Observe(v)` through the handle. -/
def Prometheus.observeReqSize (ps : Prometheus) (lvs : List GoString) (v : Sample) :
    Except Panic Prometheus :=
  match ps.reqSize with
  | none => .error .nilPointer
  | some h => (h.WithLabelValuesObserve lvs v).map (fun h1 => { ps with reqSize := some h1 })

/-- `ps.respSize.WithLabelValues(lvs...).Observe(v)` through the handle. -/
def Prometheus.observeRespSize (ps : Prometheus) (lvs : List GoString) (v : Sample) :
    Except Panic Prometheus :=
  match ps.respSize with
  | none => .error .nilPointer
  | some h => (h.WithLabelValuesObserve lvs v).map (fun h1 => { ps with respSize := some h1 })

/-- The status resolution of `Middleware` (lines 268-275): `err` is what
`ctx.Next()` returned and `ctx1` the context after it. The status starts as
500, becomes `e.Code` when the type assertion to `*fiber.Error` succeeds
(a `nil` pointer `e` panics there), and the status code of the response when
there is no error. -/
def resolveStatus (err : Option GoError) (ctx1 : Ctx) : Except Panic Int :=
  let status := StatusInternalServerError
  match err with
  | some (.fiber (some e)) => .ok e.Code
  | some (.fiber none) => .error .nilPointer
  | some (.other _) => .ok status
  | none => .ok ctx1.Response.StatusCode

/-- The prometheus middleware. `next` is `ctx.Next()` and `elapsed` the
duration `time.Since(start)` yields on line 277. A panic leaves the
instruments as they are at the call that panics. -/
def Middleware (ps : Prometheus) (ctx : Ctx) (next : Handler) (elapsed : Int) : Result :=
  if ctx.Path = ps.metricsPath then
    { ps := ps, ctx := (next ctx).1, out := .returned (next ctx).2 }
  else if ps.skip.any (fun skip => decide (ctx.Path = skip)) then
    { ps := ps, ctx := (next ctx).1, out := .returned (next ctx).2 }
  else
    let reqSize := computeApproximateRequestSize ctx.Request
    let method := ctx.Route.Method
    let ctx1 := (next ctx).1
    let err := (next ctx).2
    match resolveStatus err ctx1 with
    | .error p => { ps := ps, ctx := ctx1, out := .panicked p }
    | .ok status =>
      let url := ctx1.Route.Path
      let statusStr := Itoa status
      match ps.observeReqDur [statusStr, method, url] ⟨elapsed, Second⟩ with
      | .error p => { ps := ps, ctx := ctx1, out := .panicked p }
      | .ok ps1 =>
        match ps1.incReqCount [statusStr, method, ctx1.Hostname, url] with
        | .error p => { ps := ps1, ctx := ctx1, out := .panicked p }
        | .ok ps2 =>
          match ps2.observeReqSize [statusStr, method, url] ⟨reqSize, 1⟩ with
          | .error p => { ps := ps2, ctx := ctx1, out := .panicked p }
          | .ok ps3 =>
            match ps3.observeRespSize [statusStr, method, url]
                ⟨computeApproximateResponseSize ctx1.Response, 1⟩ with
            | .error p => { ps := ps3, ctx := ctx1, out := .panicked p }
            | .ok ps4 => { ps := ps4, ctx := ctx1, out := .returned err }

/-- One request of a run: the context the middleware is called with, the
rest of its handler chain, and what the clock measures for it. -/
structure Call where
  ctx : Ctx
  next : Handler
  elapsed : Int

/-- The instruments after the middleware has handled the requests of `calls`
one after the other (a call that panics leaves them as they are at the
panic). -/
def serve (ps : Prometheus) (calls : List Call) : Prometheus :=
  calls.foldl (fun p c => (Middleware p c.ctx c.next c.elapsed).ps) ps

/-! ## Reading the instruments -/

/-- Value of the request-count counter at label values `lvs`. -/
def Prometheus.reqCountValue (ps : Prometheus) (lvs : List GoString) : Nat :=
  (ps.reqCount.map (fun c => c.value lvs)).getD 0

/-- Observation count of the request-duration histogram at `lvs`. -/
def Prometheus.reqDurCount (ps : Prometheus) (lvs : List GoString) : Nat :=
  (ps.reqDur.map (fun h => h.count lvs)).getD 0

/-- Observation count of the request-size histogram at `lvs`. -/
def Prometheus.reqSizeCount (ps : Prometheus) (lvs : List GoString) : Nat :=
  (ps.reqSize.map (fun h => h.count lvs)).getD 0

/-- Observation count of the response-size histogram at `lvs`. -/
def Prometheus.respSizeCount (ps : Prometheus) (lvs : List GoString) : Nat :=
  (ps.respSize.map (fun h => h.count lvs)).getD 0

/-- All four handles are bound, each to a vector that carries the label
names of its metric definition: the state `registerMetrics` leaves when all
four registrations are accepted. -/
def Prometheus.Registered (ps : Prometheus) : Prop :=
  ps.reqCount.map (fun c => c.labelNames) = some prometheusfiber.reqCount.Args ∧
  ps.reqDur.map (fun h => h.labelNames) = some prometheusfiber.reqDur.Args ∧
  ps.respSize.map (fun h => h.labelNames) = some prometheusfiber.respSize.Args ∧
  ps.reqSize.map (fun h => h.labelNames) = some prometheusfiber.reqSize.Args

instance (ps : Prometheus) : Decidable ps.Registered := by
  unfold Prometheus.Registered; infer_instance

/-- Every handle is unset or bound to a vector that carries the label names
of its metric definition: what `registerMetrics` leaves in every case. -/
def Prometheus.FromDefinitions (ps : Prometheus) : Prop :=
  (ps.reqCount.map (fun c => c.labelNames) = none ∨
      ps.reqCount.map (fun c => c.labelNames) = some prometheusfiber.reqCount.Args) ∧
  (ps.reqDur.map (fun h => h.labelNames) = none ∨
      ps.reqDur.map (fun h => h.labelNames) = some prometheusfiber.reqDur.Args) ∧
  (ps.respSize.map (fun h => h.labelNames) = none ∨
      ps.respSize.map (fun h => h.labelNames) = some prometheusfiber.respSize.Args) ∧
  (ps.reqSize.map (fun h => h.labelNames) = none ∨
      ps.reqSize.map (fun h => h.labelNames) = some prometheusfiber.reqSize.Args)

instance (ps : Prometheus) : Decidable ps.FromDefinitions := by
  unfold Prometheus.FromDefinitions; infer_instance

/-- The skip test at the head of `Middleware`: the path is the metrics path
or an entry of the skip list. -/
def Prometheus.skips (ps : Prometheus) (path : String) : Prop :=
  path = ps.metricsPath ∨ path ∈ ps.skip

instance (ps : Prometheus) (path : String) : Decidable (ps.skips path) := by
  unfold Prometheus.skips; infer_instance

/-- The label values the request-count update of a measured call with the
resolved status `status` carries: status, method of the route, host,
matched route pattern. -/
def Call.countLabels (c : Call) (status : Int) : List GoString :=
  [Itoa status, c.ctx.Route.Method, (c.next c.ctx).1.Hostname, (c.next c.ctx).1.Route.Path]

/-- The label values the three histogram updates of a measured call with the
resolved status `status` carry: status, method of the route, matched route
pattern. -/
def Call.histLabels (c : Call) (status : Int) : List GoString :=
  [Itoa status, c.ctx.Route.Method, (c.next c.ctx).1.Route.Path]

/-- The status a call resolves to, `none` when the resolution panics. -/
def Call.status (c : Call) : Option Int :=
  (resolveStatus (c.next c.ctx).2 (c.next c.ctx).1).toOption

/-- The route method, the host and the matched route pattern of the call
are valid UTF-8. -/
def Call.labelsValid (c : Call) : Prop :=
  ValidString c.ctx.Route.Method = true ∧ ValidString (c.next c.ctx).1.Hostname = true ∧
    ValidString (c.next c.ctx).1.Route.Path = true

instance (c : Call) : Decidable c.labelsValid := by
  unfold Call.labelsValid; infer_instance

/-- The registry after the collectors of the metrics `ms` have been
registered in turn on `reg`, `none` when one of these registrations is
refused. -/
def registerAll {σ : Type} (register : σ → Collector → Option σ) (subsystem : String) :
    List MetricRef → σ → Option σ
  | [], reg => some reg
  | m :: rest, reg =>
    ((NewMetric m.deref subsystem).bind (register reg)).bind
      (registerAll register subsystem rest)

/-- `ps1` is `ps` with one more count at the label values `c` in the
request-count counter (none when `c` is `none`), at `d` in the
request-duration histogram, at `q` in the request-size histogram and at `r`
in the response-size histogram; configuration and label names are those of
`ps`. -/
def Prometheus.Adds (ps ps1 : Prometheus) (c d q r : Option (List GoString)) : Prop :=
  ps1.metricsPath = ps.metricsPath ∧ ps1.skip = ps.skip ∧
  ps1.reqCount.map (fun x => x.labelNames) = ps.reqCount.map (fun x => x.labelNames) ∧
  ps1.reqDur.map (fun x => x.labelNames) = ps.reqDur.map (fun x => x.labelNames) ∧
  ps1.reqSize.map (fun x => x.labelNames) = ps.reqSize.map (fun x => x.labelNames) ∧
  ps1.respSize.map (fun x => x.labelNames) = ps.respSize.map (fun x => x.labelNames) ∧
  (∀ l, ps1.reqCountValue l = ps.reqCountValue l + if c = some l then 1 else 0) ∧
  (∀ l, ps1.reqDurCount l = ps.reqDurCount l + if d = some l then 1 else 0) ∧
  (∀ l, ps1.reqSizeCount l = ps.reqSizeCount l + if q = some l then 1 else 0) ∧
  (∀ l, ps1.respSizeCount l = ps.respSizeCount l + if r = some l then 1 else 0)

/-! ## The options a caller can pass -/

/-- A description of one option of the package: which constructor built it
and with which argument. -/
inductive OptionSpec where
  | subSystem (subsystem : String)
  | metricPath (path : String)
  | skipURL (urls : List String)

/-- The option a description stands for. -/
def OptionSpec.toOpt : OptionSpec → Opt
  | .subSystem s => WithSubSystem s
  | .metricPath p => WithMetricPath p
  | .skipURL urls => WithSkipURL urls

/-- The subsystem given by the last option of the list that sets one. -/
def lastSubSystem (specs : List OptionSpec) : Option String :=
  (specs.filterMap fun o => match o with
    | .subSystem s => some s
    | _ => none).getLast?

/-- The metrics path given by the last option of the list that sets one. -/
def lastMetricPath (specs : List OptionSpec) : Option String :=
  (specs.filterMap fun o => match o with
    | .metricPath p => some p
    | _ => none).getLast?

/-- The skip list given by the last option of the list that sets one. -/
def lastSkipURL (specs : List OptionSpec) : Option (List String) :=
  (specs.filterMap fun o => match o with
    | .skipURL urls => some urls
    | _ => none).getLast?

/-! ## The setting of `TestMiddleware` (middleware_test.go 15-36) -/

/-- The label values written as string literals. -/
def labels (values : List String) : List GoString := values.map GoString.ofString

/-- The options of the test. -/
def testOptions : List Opt :=
  [WithSubSystem "random", WithMetricPath "/metrics", WithSkipURL ["/skip"]]

/-- The middleware `NewPrometheus(testOptions...)` yields on an empty
registry. -/
def testMiddleware : Prometheus :=
  { reqCount := some
      { fqName := "random_requests_total",
        help := "Total number of requests by status code and HTTP method",
        labelNames := ["code", "method", "host", "url"], children := [] },
    reqDur := some
      { fqName := "random_request_duration_seconds",
        help := "The HTTP request latencies in seconds.",
        labelNames := ["code", "method", "url"], buckets := reqDurBuckets, children := [] },
    respSize := some
      { fqName := "random_response_size_bytes", help := "The HTTP response sizes in bytes.",
        labelNames := ["code", "method", "url"], buckets := resSizeBuckets, children := [] },
    reqSize := some
      { fqName := "random_request_size_bytes", help := "The HTTP request sizes in bytes.",
        labelNames := ["code", "method", "url"], buckets := reqSizeBuckets, children := [] },
    listenAddress := "",
    metricsList := defaultMetrics,
    metricsPath := "/metrics",
    subsystem := "random",
    skip := ["/skip"] }

/-- A `Prometheus` none of whose handles is bound: what a second call of
`NewPrometheus()` in one process yields, the first registration being
refused. -/
def unboundMiddleware : Prometheus :=
  { reqCount := none, reqDur := none, respSize := none, reqSize := none,
    listenAddress := "", metricsList := defaultMetrics, metricsPath := "/metrics",
    subsystem := "fiber", skip := [] }

/-- A registry in which the application has already registered a collector
named `fiber_request_duration_seconds`, and nothing else. -/
def conflictRegistry : List String := ["fiber_request_duration_seconds"]

/-- The number of calls of the run that `ps` measures (does not skip) and
whose request-count update carries the label values `lvs`. -/
def measuredWith (ps : Prometheus) (lvs : List GoString) (calls : List Call) : Nat :=
  (calls.filter fun c =>
    decide (¬ ps.skips c.ctx.Path ∧ c.status.map c.countLabels = some lvs)).length

/-- The middleware `NewPrometheus()` yields on `conflictRegistry`: the
request-count handle is bound, the other three are unset. -/
def conflictMiddleware : Prometheus :=
  { reqCount := some
      { fqName := "fiber_requests_total",
        help := "Total number of requests by status code and HTTP method",
        labelNames := ["code", "method", "host", "url"], children := [] },
    reqDur := none, respSize := none, reqSize := none,
    listenAddress := "", metricsList := defaultMetrics, metricsPath := "/metrics",
    subsystem := "fiber", skip := [] }


/-- The context of `httptest.NewRequest(GET, path, nil)` when the middleware
is entered: host `example.com`, no body, and the route of `app.Use`. -/
def testRequest (path : String) : Ctx :=
  { Path := path,
    Hostname := GoString.ofString "example.com",
    Route := { Method := GoString.ofString "GET", Path := GoString.ofString "/" },
    Request :=
      { Body := [],
        Header := [([72, 111, 115, 116], [101, 120, 97, 109, 112, 108, 101, 46, 99, 111, 109])] },
    Response := { StatusCode := 200, Body := [], Header := [] } }

/-- A request as `testRequest`, whose `Host` header is the single byte `FF`,
which is not valid UTF-8. -/
def badHostRequest (path : String) : Ctx :=
  { testRequest path with
    Hostname := [0xFF],
    Request := { Body := [], Header := [([72, 111, 115, 116], [0xFF])] } }

/-- The rest of the chain for a request that matches the route `pattern`
and whose handler sends the status `code` and returns `nil`. -/
def sendStatus (pattern : String) (code : Int) : Handler :=
  fun ctx =>
    ({ ctx with Route := { Method := GoString.ofString "GET", Path := GoString.ofString pattern },
                Response := { ctx.Response with StatusCode := code } }, none)

/-- The rest of the chain for a request whose handler returns `err`. -/
def failWith (pattern : String) (err : GoError) : Handler :=
  fun ctx =>
    ({ ctx with Route := { Method := GoString.ofString "GET", Path := GoString.ofString pattern } },
      some err)

/-- The three measured requests of the first subtest. -/
def testRound : List Call :=
  [ { ctx := testRequest "/", next := sendStatus "/" 200, elapsed := 1500 },
    { ctx := testRequest "/status/500", next := sendStatus "/status/:code" 500, elapsed := 900 },
    { ctx := testRequest "/status/404", next := sendStatus "/status/:code" 404, elapsed := 800 } ]

/-- The request to the skipped URL of the second subtest. -/
def testSkipped : Call :=
  { ctx := testRequest "/skip", next := sendStatus "/skip" 200, elapsed := 700 }

/-- The scrape request that ends each subtest. -/
def testScrape : Call :=
  { ctx := testRequest "/metrics", next := sendStatus "/metrics" 200, elapsed := 600 }

/-! ## Predicates on the instruments -/

/-- No child exists yet in any bound instrument. -/
def Prometheus.Fresh (ps : Prometheus) : Prop :=
  ∀ l, ps.reqCountValue l = 0 ∧ ps.reqDurCount l = 0 ∧ ps.reqSizeCount l = 0 ∧
    ps.respSizeCount l = 0

/-! ## Lemmas on the children table -/

theorem getChild_updateChild_self {β : Type} (lvs : List GoString) (init : β) (f : β → β)
    (m : List (List GoString × β)) :
    getChild lvs (updateChild lvs init f m) = some (f ((getChild lvs m).getD init)) := by
  induction m with
  | nil => simp [updateChild, getChild]
  | cons kv rest ih =>
    obtain ⟨k, v⟩ := kv
    by_cases hk : k = lvs
    · simp [updateChild, getChild, hk]
    · simp [updateChild, getChild, hk, ih]

theorem getChild_updateChild_ne {β : Type} (l lvs : List GoString) (hne : l ≠ lvs) (init : β)
    (f : β → β) (m : List (List GoString × β)) :
    getChild l (updateChild lvs init f m) = getChild l m := by
  have hne2 : lvs ≠ l := fun h => hne h.symm
  induction m with
  | nil => simp [updateChild, getChild, hne2]
  | cons kv rest ih =>
    obtain ⟨k, v⟩ := kv
    by_cases hk : k = lvs
    · subst hk
      simp [updateChild, getChild, hne2]
    · by_cases hl : k = l
      · subst hl
        simp [updateChild, getChild, hk]
      · simp [updateChild, getChild, hk, hl, ih]

theorem validateLabelValues_ok_iff (vals : List GoString) (n : Nat) :
    validateLabelValues vals n = .ok () ↔ vals.length = n ∧ vals.all ValidString = true := by
  unfold validateLabelValues
  by_cases h1 : vals.length = n
  · by_cases h2 : vals.all ValidString = true
    · simp [h1, h2]
    · simp [h1, h2]
  · simp [h1]

theorem CounterVec.inc_ok_iff (c c1 : CounterVec) (lvs : List GoString) :
    c.WithLabelValuesInc lvs = .ok c1 ↔
      (lvs.length = c.labelNames.length ∧ lvs.all ValidString = true) ∧
        c1 = { c with children := updateChild lvs 0 (fun n => n + 1) c.children } := by
  unfold CounterVec.WithLabelValuesInc
  rw [← validateLabelValues_ok_iff]
  cases hv : validateLabelValues lvs c.labelNames.length with
  | error p => simp
  | ok u =>
    simp only [Except.ok.injEq, true_and]
    exact eq_comm

theorem HistogramVec.observe_ok_iff (h h1 : HistogramVec) (lvs : List GoString) (v : Sample) :
    h.WithLabelValuesObserve lvs v = .ok h1 ↔
      (lvs.length = h.labelNames.length ∧ lvs.all ValidString = true) ∧
        h1 = { h with children := updateChild lvs [] (fun obs => v :: obs) h.children } := by
  unfold HistogramVec.WithLabelValuesObserve
  rw [← validateLabelValues_ok_iff]
  cases hv : validateLabelValues lvs h.labelNames.length with
  | error p => simp
  | ok u =>
    simp only [Except.ok.injEq, true_and]
    exact eq_comm

theorem CounterVec.value_inc (c : CounterVec) (lvs l : List GoString) :
    CounterVec.value { c with children := updateChild lvs 0 (fun n => n + 1) c.children } l =
      c.value l + if lvs = l then 1 else 0 := by
  by_cases h : l = lvs
  · subst h
    simp [CounterVec.value, getChild_updateChild_self]
  · have h2 : ¬ lvs = l := fun e => h e.symm
    simp [CounterVec.value, getChild_updateChild_ne l lvs h, h2]

theorem HistogramVec.count_observe (h : HistogramVec) (lvs l : List GoString) (v : Sample) :
    HistogramVec.count
        { h with children := updateChild lvs [] (fun obs => v :: obs) h.children } l =
      h.count l + if lvs = l then 1 else 0 := by
  by_cases hl : l = lvs
  · subst hl
    simp [HistogramVec.count, getChild_updateChild_self]
  · have h2 : ¬ lvs = l := fun e => hl e.symm
    simp [HistogramVec.count, getChild_updateChild_ne l lvs hl, h2]

theorem validateLabelValues_error (vals : List GoString) (n : Nat) (p : Panic)
    (h : validateLabelValues vals n = .error p) :
    (p = .labelCardinality ∧ vals.length ≠ n) ∨ p = .invalidLabelValue := by
  unfold validateLabelValues at h
  split_ifs at h with h1 h2
  · left; exact ⟨by cases h; rfl, h1⟩
  · right; cases h; rfl

/-! ## `Itoa` is injective and valid UTF-8 -/

theorem toDigitsCore_fuel (f g n : Nat) (ds : List Char) (hf : n < f) (hg : n < g) :
    Nat.toDigitsCore 10 f n ds = Nat.toDigitsCore 10 g n ds := by
  induction f generalizing g n ds with
  | zero => omega
  | succ f ih =>
    cases g with
    | zero => omega
    | succ g =>
      simp only [Nat.toDigitsCore]
      by_cases h : n / 10 = 0
      · simp [h]
      · simp only [h, if_false]
        exact ih g (n / 10) _ (by omega) (by omega)

theorem toDigitsCore_acc (f n : Nat) (ds : List Char) :
    Nat.toDigitsCore 10 f n ds = Nat.toDigitsCore 10 f n [] ++ ds := by
  induction f generalizing n ds with
  | zero => simp [Nat.toDigitsCore]
  | succ f ih =>
    simp only [Nat.toDigitsCore]
    by_cases h : n / 10 = 0
    · simp [h]
    · simp only [h, if_false]
      rw [ih (n / 10) (Nat.digitChar (n % 10) :: ds), ih (n / 10) [Nat.digitChar (n % 10)]]
      simp

theorem toDigits_step (n : Nat) :
    Nat.toDigits 10 n =
      if n / 10 = 0 then [Nat.digitChar (n % 10)]
      else Nat.toDigits 10 (n / 10) ++ [Nat.digitChar (n % 10)] := by
  have e : Nat.toDigitsCore 10 (n + 1) n [] =
      if n / 10 = 0 then [Nat.digitChar (n % 10)]
      else Nat.toDigitsCore 10 n (n / 10) [Nat.digitChar (n % 10)] := by
    simp only [Nat.toDigitsCore]
  by_cases h : n / 10 = 0
  · rw [Nat.toDigits, e]
    simp [h]
  · rw [Nat.toDigits, e, Nat.toDigits]
    simp only [h, if_false]
    rw [toDigitsCore_acc, toDigitsCore_fuel n (n / 10 + 1) (n / 10) [] (by omega) (by omega)]

theorem digitChar_inj (a b : Nat) (ha : a < 10) (hb : b < 10)
    (h : Nat.digitChar a = Nat.digitChar b) : a = b := by
  interval_cases a <;> interval_cases b <;> first | rfl | (exact absurd h (by decide))

theorem toDigits_ne_nil (n : Nat) : Nat.toDigits 10 n ≠ [] := by
  rw [toDigits_step]
  split_ifs <;> simp

theorem toDigits_inj (n m : Nat) (h : Nat.toDigits 10 n = Nat.toDigits 10 m) : n = m := by
  induction n using Nat.strong_induction_on generalizing m with
  | _ n ih =>
    rw [toDigits_step n, toDigits_step m] at h
    have hn := Nat.mod_lt n (show 10 > 0 by decide)
    have hm := Nat.mod_lt m (show 10 > 0 by decide)
    by_cases h1 : n / 10 = 0 <;> by_cases h2 : m / 10 = 0
    · simp only [h1, h2, if_true, List.cons.injEq, and_true] at h
      have := digitChar_inj _ _ hn hm h
      omega
    · simp only [h1, h2, if_true, if_false] at h
      have h3 := congrArg List.length h
      have h4 := toDigits_ne_nil (m / 10)
      simp only [List.length_singleton, List.length_append] at h3
      have : (Nat.toDigits 10 (m / 10)).length = 0 := by omega
      exact absurd (List.length_eq_zero.mp this) h4
    · simp only [h1, h2, if_true, if_false] at h
      have h3 := congrArg List.length h
      have h4 := toDigits_ne_nil (n / 10)
      simp only [List.length_singleton, List.length_append] at h3
      have : (Nat.toDigits 10 (n / 10)).length = 0 := by omega
      exact absurd (List.length_eq_zero.mp this) h4
    · simp only [h1, h2, if_false] at h
      have h3 := List.append_inj' h rfl
      have h5 : n / 10 = m / 10 := ih (n / 10) (by omega) (m / 10) h3.1
      have h6 := digitChar_inj _ _ hn hm (by simpa using h3.2)
      omega

theorem digitChar_ne_minus (k : Nat) (hk : k < 10) : Nat.digitChar k ≠ '-' := by
  interval_cases k <;> decide

theorem toDigits_head_ne_minus (n : Nat) (rest : List Char) :
    Nat.toDigits 10 n ≠ '-' :: rest := by
  induction n using Nat.strong_induction_on generalizing rest with
  | _ n ih =>
    rw [toDigits_step]
    by_cases h1 : n / 10 = 0
    · simp only [h1, if_true]
      intro h
      simp only [List.cons.injEq] at h
      exact digitChar_ne_minus _ (Nat.mod_lt n (by decide)) h.1
    · simp only [h1, if_false]
      intro h
      cases hd : Nat.toDigits 10 (n / 10) with
      | nil => exact toDigits_ne_nil _ hd
      | cons c cs =>
        rw [hd] at h
        simp only [List.cons_append, List.cons.injEq] at h
        exact ih (n / 10) (by omega) cs (by rw [hd, h.1])

theorem Int_repr_injective (a b : Int) (h : Int.repr a = Int.repr b) : a = b := by
  have hd := congrArg String.data h
  cases a with
  | ofNat n =>
    cases b with
    | ofNat m =>
      simp only [Int.repr, Nat.repr, List.asString] at hd
      rw [toDigits_inj n m hd]
    | negSucc m =>
      simp only [Int.repr, Nat.repr, List.asString, String.data_append] at hd
      exact absurd hd (toDigits_head_ne_minus n _)
  | negSucc n =>
    cases b with
    | ofNat m =>
      simp only [Int.repr, Nat.repr, List.asString, String.data_append] at hd
      exact absurd hd.symm (toDigits_head_ne_minus m _)
    | negSucc m =>
      simp only [Int.repr, Nat.repr, List.asString, String.data_append,
        List.append_cancel_left_eq] at hd
      have := toDigits_inj _ _ hd
      simp only [Nat.succ_eq_add_one] at this
      congr 1
      omega


theorem toDigits_ascii (n : Nat) : ∀ c ∈ Nat.toDigits 10 n, c.toNat < 0x80 := by
  induction n using Nat.strong_induction_on with
  | _ n ih =>
    have hd : (Nat.digitChar (n % 10)).toNat < 0x80 := by
      have hn := Nat.mod_lt n (show 10 > 0 by decide)
      generalize n % 10 = k at hn
      interval_cases k <;> decide
    intro c hc
    rw [toDigits_step] at hc
    by_cases h1 : n / 10 = 0
    · simp only [h1, if_true, List.mem_singleton] at hc
      rw [hc]; exact hd
    · simp only [h1, if_false, List.mem_append, List.mem_singleton] at hc
      rcases hc with hc | hc
      · exact ih (n / 10) (by omega) c hc
      · rw [hc]; exact hd

theorem Int_repr_ascii (i : Int) : ∀ c ∈ (Int.repr i).data, c.toNat < 0x80 := by
  intro c hc
  cases i with
  | ofNat n =>
    simp only [Int.repr, Nat.repr, List.asString] at hc
    exact toDigits_ascii n c hc
  | negSucc n =>
    simp only [Int.repr, Nat.repr, List.asString, String.data_append, List.mem_append] at hc
    rcases hc with hc | hc
    · have : c = '-' := by simpa using hc
      rw [this]; decide
    · exact toDigits_ascii _ c hc

theorem ofString_ascii (l : List Char) (h : ∀ c ∈ l, c.toNat < 0x80) :
    (l.map encodeChar).flatten = l.map fun c => Fin.ofNat c.toNat := by
  induction l with
  | nil => rfl
  | cons c rest ih =>
    have hc : c.toNat < 0x80 := h c (List.mem_cons_self _ _)
    have hr := ih fun d hd => h d (List.mem_cons_of_mem _ hd)
    simp only [List.map_cons, List.flatten_cons, hr]
    simp [encodeChar, hc]

theorem ValidString_of_ascii (l : GoString) (h : ∀ b ∈ l, b.val < 0x80) :
    ValidString l = true := by
  induction l with
  | nil => rfl
  | cons b rest ih =>
    have hb : b.val < 0x80 := h b (List.mem_cons_self _ _)
    have hr := ih fun d hd => h d (List.mem_cons_of_mem _ hd)
    unfold ValidString at hr ⊢
    rw [validFrom, if_pos hb]
    exact hr

theorem Itoa_valid (i : Int) : ValidString (Itoa i) = true := by
  unfold Itoa GoString.ofString
  rw [ofString_ascii _ (Int_repr_ascii i)]
  apply ValidString_of_ascii
  intro b hb
  simp only [List.mem_map] at hb
  obtain ⟨c, hc, rfl⟩ := hb
  have := Int_repr_ascii i c hc
  simp only [Fin.ofNat, Fin.val_mk]
  omega

theorem map_byte_injective (l1 l2 : List Char) (h1 : ∀ c ∈ l1, c.toNat < 0x80)
    (h2 : ∀ c ∈ l2, c.toNat < 0x80)
    (h : (l1.map fun c => (Fin.ofNat c.toNat : Fin 256)) = l2.map fun c => Fin.ofNat c.toNat) :
    l1 = l2 := by
  induction l1 generalizing l2 with
  | nil =>
    cases l2 with
    | nil => rfl
    | cons d r => simp at h
  | cons c rest ih =>
    cases l2 with
    | nil => simp at h
    | cons d r =>
      simp only [List.map_cons, List.cons.injEq] at h
      have hc := h1 c (List.mem_cons_self _ _)
      have hd := h2 d (List.mem_cons_self _ _)
      have e : c.toNat = d.toNat := by
        have := congrArg Fin.val h.1
        simp only [Fin.ofNat, Fin.val_mk] at this
        omega
      have ecd : c = d := by
        rw [← Char.ofNat_toNat c, ← Char.ofNat_toNat d, e]
      rw [ecd, ih r (fun x hx => h1 x (List.mem_cons_of_mem _ hx))
        (fun x hx => h2 x (List.mem_cons_of_mem _ hx)) h.2]

theorem Itoa_injective (a b : Int) (h : Itoa a = Itoa b) : a = b := by
  unfold Itoa GoString.ofString at h
  rw [ofString_ascii _ (Int_repr_ascii a), ofString_ascii _ (Int_repr_ascii b)] at h
  have hd := map_byte_injective _ _ (Int_repr_ascii a) (Int_repr_ascii b) h
  exact Int_repr_injective a b (String.ext hd)


/-! ## The four updates -/

theorem Prometheus.Adds.refl (ps : Prometheus) : ps.Adds ps none none none none := by
  refine ⟨rfl, rfl, rfl, rfl, rfl, rfl, ?_, ?_, ?_, ?_⟩ <;> intro l <;> simp

theorem Prometheus.Adds.trans {ps ps1 ps2 : Prometheus}
    {c d q r c2 d2 q2 r2 : Option (List GoString)} (c3 d3 q3 r3 : Option (List GoString))
    (h1 : ps.Adds ps1 c d q r)
    (h2 : ps1.Adds ps2 c2 d2 q2 r2) (hc : (c = none ∧ c3 = c2) ∨ (c2 = none ∧ c3 = c))
    (hd : (d = none ∧ d3 = d2) ∨ (d2 = none ∧ d3 = d))
    (hq : (q = none ∧ q3 = q2) ∨ (q2 = none ∧ q3 = q))
    (hr : (r = none ∧ r3 = r2) ∨ (r2 = none ∧ r3 = r)) : ps.Adds ps2 c3 d3 q3 r3 := by
  obtain ⟨a1, a2, a3, a4, a5, a6, a7, a8, a9, a10⟩ := h1
  obtain ⟨b1, b2, b3, b4, b5, b6, b7, b8, b9, b10⟩ := h2
  refine ⟨b1.trans a1, b2.trans a2, b3.trans a3, b4.trans a4, b5.trans a5, b6.trans a6, ?_, ?_,
    ?_, ?_⟩
  · intro l
    rw [b7, a7]
    rcases hc with ⟨rfl, rfl⟩ | ⟨rfl, rfl⟩ <;> simp
  · intro l
    rw [b8, a8]
    rcases hd with ⟨rfl, rfl⟩ | ⟨rfl, rfl⟩ <;> simp
  · intro l
    rw [b9, a9]
    rcases hq with ⟨rfl, rfl⟩ | ⟨rfl, rfl⟩ <;> simp
  · intro l
    rw [b10, a10]
    rcases hr with ⟨rfl, rfl⟩ | ⟨rfl, rfl⟩ <;> simp

theorem Prometheus.observeReqDur_ok (ps ps1 : Prometheus) (lvs : List GoString) (v : Sample)
    (h : ps.observeReqDur lvs v = .ok ps1) :
    ps.reqDur.map (fun x => x.labelNames.length) = some lvs.length ∧
      lvs.all ValidString = true ∧ ps.Adds ps1 none (some lvs) none none := by
  unfold Prometheus.observeReqDur at h
  cases hh : ps.reqDur with
  | none => simp [hh] at h
  | some x =>
    rw [hh] at h
    cases hx : x.WithLabelValuesObserve lvs v with
    | error p => simp [hx, Except.map] at h
    | ok x1 =>
      simp only [hx, Except.map, Except.ok.injEq] at h
      obtain ⟨⟨hlen, hval⟩, rfl⟩ := (x.observe_ok_iff x1 lvs v).1 hx
      subst h
      refine ⟨by simp [hlen], hval, rfl, rfl, rfl, by simp [hh], rfl, rfl, ?_, ?_, ?_, ?_⟩
      · intro l; simp [Prometheus.reqCountValue]
      · intro l
        simp only [Prometheus.reqDurCount, hh, Option.map_some', Option.getD_some,
          HistogramVec.count_observe, Option.some.injEq]
      · intro l; simp [Prometheus.reqSizeCount]
      · intro l; simp [Prometheus.respSizeCount]

theorem Prometheus.incReqCount_ok (ps ps1 : Prometheus) (lvs : List GoString)
    (h : ps.incReqCount lvs = .ok ps1) :
    ps.reqCount.map (fun x => x.labelNames.length) = some lvs.length ∧
      lvs.all ValidString = true ∧ ps.Adds ps1 (some lvs) none none none := by
  unfold Prometheus.incReqCount at h
  cases hh : ps.reqCount with
  | none => simp [hh] at h
  | some x =>
    rw [hh] at h
    cases hx : x.WithLabelValuesInc lvs with
    | error p => simp [hx, Except.map] at h
    | ok x1 =>
      simp only [hx, Except.map, Except.ok.injEq] at h
      obtain ⟨⟨hlen, hval⟩, rfl⟩ := (x.inc_ok_iff x1 lvs).1 hx
      subst h
      refine ⟨by simp [hlen], hval, rfl, rfl, by simp [hh], rfl, rfl, rfl, ?_, ?_, ?_, ?_⟩
      · intro l
        simp only [Prometheus.reqCountValue, hh, Option.map_some', Option.getD_some,
          CounterVec.value_inc, Option.some.injEq]
      · intro l; simp [Prometheus.reqDurCount]
      · intro l; simp [Prometheus.reqSizeCount]
      · intro l; simp [Prometheus.respSizeCount]

theorem Prometheus.observeReqSize_ok (ps ps1 : Prometheus) (lvs : List GoString) (v : Sample)
    (h : ps.observeReqSize lvs v = .ok ps1) :
    ps.reqSize.map (fun x => x.labelNames.length) = some lvs.length ∧
      lvs.all ValidString = true ∧ ps.Adds ps1 none none (some lvs) none := by
  unfold Prometheus.observeReqSize at h
  cases hh : ps.reqSize with
  | none => simp [hh] at h
  | some x =>
    rw [hh] at h
    cases hx : x.WithLabelValuesObserve lvs v with
    | error p => simp [hx, Except.map] at h
    | ok x1 =>
      simp only [hx, Except.map, Except.ok.injEq] at h
      obtain ⟨⟨hlen, hval⟩, rfl⟩ := (x.observe_ok_iff x1 lvs v).1 hx
      subst h
      refine ⟨by simp [hlen], hval, rfl, rfl, rfl, rfl, by simp [hh], rfl, ?_, ?_, ?_, ?_⟩
      · intro l; simp [Prometheus.reqCountValue]
      · intro l; simp [Prometheus.reqDurCount]
      · intro l
        simp only [Prometheus.reqSizeCount, hh, Option.map_some', Option.getD_some,
          HistogramVec.count_observe, Option.some.injEq]
      · intro l; simp [Prometheus.respSizeCount]

theorem Prometheus.observeRespSize_ok (ps ps1 : Prometheus) (lvs : List GoString) (v : Sample)
    (h : ps.observeRespSize lvs v = .ok ps1) :
    ps.respSize.map (fun x => x.labelNames.length) = some lvs.length ∧
      lvs.all ValidString = true ∧ ps.Adds ps1 none none none (some lvs) := by
  unfold Prometheus.observeRespSize at h
  cases hh : ps.respSize with
  | none => simp [hh] at h
  | some x =>
    rw [hh] at h
    cases hx : x.WithLabelValuesObserve lvs v with
    | error p => simp [hx, Except.map] at h
    | ok x1 =>
      simp only [hx, Except.map, Except.ok.injEq] at h
      obtain ⟨⟨hlen, hval⟩, rfl⟩ := (x.observe_ok_iff x1 lvs v).1 hx
      subst h
      refine ⟨by simp [hlen], hval, rfl, rfl, rfl, rfl, rfl, by simp [hh], ?_, ?_, ?_, ?_⟩
      · intro l; simp [Prometheus.reqCountValue]
      · intro l; simp [Prometheus.reqDurCount]
      · intro l; simp [Prometheus.reqSizeCount]
      · intro l
        simp only [Prometheus.respSizeCount, hh, Option.map_some', Option.getD_some,
          HistogramVec.count_observe, Option.some.injEq]

theorem CounterVec.inc_cardinality (c : CounterVec) (lvs : List GoString)
    (h : c.WithLabelValuesInc lvs = .error .labelCardinality) :
    lvs.length ≠ c.labelNames.length := by
  unfold CounterVec.WithLabelValuesInc at h
  cases hv : validateLabelValues lvs c.labelNames.length with
  | ok u => simp [hv] at h
  | error p =>
    simp only [hv, Except.error.injEq] at h
    subst h
    rcases validateLabelValues_error _ _ _ hv with ⟨-, hne⟩ | hp
    · exact hne
    · cases hp

theorem HistogramVec.observe_cardinality (x : HistogramVec) (lvs : List GoString) (v : Sample)
    (h : x.WithLabelValuesObserve lvs v = .error .labelCardinality) :
    lvs.length ≠ x.labelNames.length := by
  unfold HistogramVec.WithLabelValuesObserve at h
  cases hv : validateLabelValues lvs x.labelNames.length with
  | ok u => simp [hv] at h
  | error p =>
    simp only [hv, Except.error.injEq] at h
    subst h
    rcases validateLabelValues_error _ _ _ hv with ⟨-, hne⟩ | hp
    · exact hne
    · cases hp

theorem Prometheus.observeReqDur_cardinality (ps : Prometheus) (lvs : List GoString)
    (v : Sample) (h : ps.observeReqDur lvs v = .error .labelCardinality) :
    ∃ n, ps.reqDur.map (fun x => x.labelNames.length) = some n ∧ lvs.length ≠ n := by
  unfold Prometheus.observeReqDur at h
  cases hh : ps.reqDur with
  | none => simp [hh] at h
  | some x =>
    rw [hh] at h
    cases hx : x.WithLabelValuesObserve lvs v with
    | ok x1 => simp [hx, Except.map] at h
    | error p =>
      simp only [hx, Except.map, Except.error.injEq] at h
      subst h
      exact ⟨_, rfl, x.observe_cardinality lvs v hx⟩

theorem Prometheus.incReqCount_cardinality (ps : Prometheus) (lvs : List GoString)
    (h : ps.incReqCount lvs = .error .labelCardinality) :
    ∃ n, ps.reqCount.map (fun x => x.labelNames.length) = some n ∧ lvs.length ≠ n := by
  unfold Prometheus.incReqCount at h
  cases hh : ps.reqCount with
  | none => simp [hh] at h
  | some x =>
    rw [hh] at h
    cases hx : x.WithLabelValuesInc lvs with
    | ok x1 => simp [hx, Except.map] at h
    | error p =>
      simp only [hx, Except.map, Except.error.injEq] at h
      subst h
      exact ⟨_, rfl, x.inc_cardinality lvs hx⟩

theorem Prometheus.observeReqSize_cardinality (ps : Prometheus) (lvs : List GoString)
    (v : Sample) (h : ps.observeReqSize lvs v = .error .labelCardinality) :
    ∃ n, ps.reqSize.map (fun x => x.labelNames.length) = some n ∧ lvs.length ≠ n := by
  unfold Prometheus.observeReqSize at h
  cases hh : ps.reqSize with
  | none => simp [hh] at h
  | some x =>
    rw [hh] at h
    cases hx : x.WithLabelValuesObserve lvs v with
    | ok x1 => simp [hx, Except.map] at h
    | error p =>
      simp only [hx, Except.map, Except.error.injEq] at h
      subst h
      exact ⟨_, rfl, x.observe_cardinality lvs v hx⟩

theorem Prometheus.observeRespSize_cardinality (ps : Prometheus) (lvs : List GoString)
    (v : Sample) (h : ps.observeRespSize lvs v = .error .labelCardinality) :
    ∃ n, ps.respSize.map (fun x => x.labelNames.length) = some n ∧ lvs.length ≠ n := by
  unfold Prometheus.observeRespSize at h
  cases hh : ps.respSize with
  | none => simp [hh] at h
  | some x =>
    rw [hh] at h
    cases hx : x.WithLabelValuesObserve lvs v with
    | ok x1 => simp [hx, Except.map] at h
    | error p =>
      simp only [hx, Except.map, Except.error.injEq] at h
      subst h
      exact ⟨_, rfl, x.observe_cardinality lvs v hx⟩

/-- A label-arity mismatch on a handle cannot happen when the handle carries
the label names `names` of its definition and the call passes as many
values. -/
theorem arity_of_names (now before : Option (List String)) (names : List String) (n k : Nat)
    (hsame : now = before) (hdef : before = none ∨ before = some names)
    (hn : now.map List.length = some n) (hk : names.length = k) : n = k := by
  subst hsame
  rcases hdef with h | h
  · rw [h] at hn; cases hn
  · rw [h] at hn
    simp only [Option.map_some', Option.some.injEq] at hn
    omega

/-! ## One call of the middleware -/

theorem Middleware_of_skips (ps : Prometheus) (ctx : Ctx) (next : Handler) (elapsed : Int)
    (h : ps.skips ctx.Path) :
    Middleware ps ctx next elapsed =
      { ps := ps, ctx := (next ctx).1, out := .returned (next ctx).2 } := by
  unfold Middleware
  rcases h with h | h
  · simp [h]
  · have : (ps.skip.any fun skip => decide (ctx.Path = skip)) = true := by
      simp only [List.any_eq_true, decide_eq_true_eq]
      exact ⟨_, h, rfl⟩
    simp [this]

theorem not_skips_any (ps : Prometheus) (path : String) (hskip : ¬ ps.skips path) :
    path ≠ ps.metricsPath ∧ (ps.skip.any fun skip => decide (path = skip)) = false := by
  refine ⟨fun h => hskip (Or.inl h), ?_⟩
  rw [Bool.eq_false_iff]
  intro h
  simp only [List.any_eq_true, decide_eq_true_eq] at h
  obtain ⟨x, hx, rfl⟩ := h
  exact hskip (Or.inr hx)

theorem Middleware_of_status_panic (ps : Prometheus) (ctx : Ctx) (next : Handler)
    (elapsed : Int) (hskip : ¬ ps.skips ctx.Path) (p : Panic)
    (hst : resolveStatus (next ctx).2 (next ctx).1 = .error p) :
    Middleware ps ctx next elapsed = { ps := ps, ctx := (next ctx).1, out := .panicked p } := by
  obtain ⟨hp, hs⟩ := not_skips_any ps ctx.Path hskip
  simp [Middleware, hp, hs, hst]

/-- A measured call whose status resolves to `status`: the instruments after
it are those before it with at most one more count in each, at the label
values of the call, and either all four updates were made and the call
returned what the next handler returned, or the call panicked. -/
theorem Middleware_measured_adds (ps : Prometheus) (ctx : Ctx) (next : Handler)
    (elapsed : Int) (hskip : ¬ ps.skips ctx.Path) (status : Int)
    (hst : resolveStatus (next ctx).2 (next ctx).1 = .ok status) :
    ∃ c d q r, ps.Adds (Middleware ps ctx next elapsed).ps c d q r ∧
      (c = none ∨ c = some (Call.countLabels ⟨ctx, next, elapsed⟩ status)) ∧
      (d = none ∨ d = some (Call.histLabels ⟨ctx, next, elapsed⟩ status)) ∧
      (q = none ∨ q = some (Call.histLabels ⟨ctx, next, elapsed⟩ status)) ∧
      (r = none ∨ r = some (Call.histLabels ⟨ctx, next, elapsed⟩ status)) ∧
      (c ≠ none → (Call.countLabels ⟨ctx, next, elapsed⟩ status).all ValidString = true) ∧
      (((Middleware ps ctx next elapsed).out = .returned (next ctx).2 ∧
          c = some (Call.countLabels ⟨ctx, next, elapsed⟩ status) ∧
          d = some (Call.histLabels ⟨ctx, next, elapsed⟩ status) ∧
          q = some (Call.histLabels ⟨ctx, next, elapsed⟩ status) ∧
          r = some (Call.histLabels ⟨ctx, next, elapsed⟩ status) ∧
          ps.reqCount.map (fun x => x.labelNames.length) = some 4 ∧
          ps.reqDur.map (fun x => x.labelNames.length) = some 3 ∧
          ps.reqSize.map (fun x => x.labelNames.length) = some 3 ∧
          ps.respSize.map (fun x => x.labelNames.length) = some 3 ∧
          (Call.countLabels ⟨ctx, next, elapsed⟩ status).all ValidString = true) ∨
        ∃ p, (Middleware ps ctx next elapsed).out = .panicked p ∧
          (ps.FromDefinitions → p ≠ .labelCardinality)) := by
  obtain ⟨hp, hs⟩ := not_skips_any ps ctx.Path hskip
  simp only [Call.countLabels, Call.histLabels]
  unfold Middleware
  simp only [hp, hs, hst, if_false, Bool.false_eq_true]
  cases h1 : ps.observeReqDur [Itoa status, ctx.Route.Method, (next ctx).1.Route.Path]
      ⟨elapsed, Second⟩ with
  | error p =>
    refine ⟨none, none, none, none, Prometheus.Adds.refl ps, Or.inl rfl, Or.inl rfl, Or.inl rfl,
      Or.inl rfl, fun h => absurd rfl h, Or.inr ⟨p, rfl, ?_⟩⟩
    rintro hdef rfl
    obtain ⟨n, hn, hne⟩ := Prometheus.observeReqDur_cardinality ps _ _ h1
    have hn2 : (ps.reqDur.map fun x => x.labelNames).map List.length = some n := by
      rw [Option.map_map]; exact hn
    exact hne (arity_of_names _ _ reqDur.Args n 3 rfl hdef.2.1 hn2 rfl).symm
  | ok ps1 =>
    obtain ⟨l1, v1, a1⟩ := Prometheus.observeReqDur_ok ps ps1 _ _ h1
    simp only
    cases h2 : ps1.incReqCount
        [Itoa status, ctx.Route.Method, (next ctx).1.Hostname, (next ctx).1.Route.Path] with
    | error p =>
      refine ⟨none, _, none, none, a1, Or.inl rfl, Or.inr rfl, Or.inl rfl, Or.inl rfl,
        fun h => absurd rfl h, Or.inr ⟨p, rfl, ?_⟩⟩
      rintro hdef rfl
      obtain ⟨n, hn, hne⟩ := Prometheus.incReqCount_cardinality ps1 _ h2
      have hn2 : (ps1.reqCount.map fun x => x.labelNames).map List.length = some n := by
        rw [Option.map_map]; exact hn
      exact hne (arity_of_names _ _ reqCount.Args n 4 a1.2.2.1 hdef.1 hn2 rfl).symm
    | ok ps2 =>
      obtain ⟨l2, v2, a2⟩ := Prometheus.incReqCount_ok ps1 ps2 _ h2
      have a12 := Prometheus.Adds.trans (some _) (some _) none none a1 a2 (Or.inl ⟨rfl, rfl⟩)
        (Or.inr ⟨rfl, rfl⟩) (Or.inl ⟨rfl, rfl⟩) (Or.inl ⟨rfl, rfl⟩)
      simp only
      cases h3 : ps2.observeReqSize [Itoa status, ctx.Route.Method, (next ctx).1.Route.Path]
          ⟨computeApproximateRequestSize ctx.Request, 1⟩ with
      | error p =>
        refine ⟨_, _, none, none, a12, Or.inr rfl, Or.inr rfl, Or.inl rfl, Or.inl rfl,
          fun _ => v2, Or.inr ⟨p, rfl, ?_⟩⟩
        rintro hdef rfl
        obtain ⟨n, hn, hne⟩ := Prometheus.observeReqSize_cardinality ps2 _ _ h3
        have hn2 : (ps2.reqSize.map fun x => x.labelNames).map List.length = some n := by
          rw [Option.map_map]; exact hn
        exact hne (arity_of_names _ _ reqSize.Args n 3 a12.2.2.2.2.1 hdef.2.2.2 hn2 rfl).symm
      | ok ps3 =>
        obtain ⟨l3, v3, a3⟩ := Prometheus.observeReqSize_ok ps2 ps3 _ _ h3
        have a123 := Prometheus.Adds.trans (some _) (some _) (some _) none a12 a3
          (Or.inr ⟨rfl, rfl⟩) (Or.inr ⟨rfl, rfl⟩) (Or.inl ⟨rfl, rfl⟩) (Or.inl ⟨rfl, rfl⟩)
        simp only
        cases h4 : ps3.observeRespSize [Itoa status, ctx.Route.Method, (next ctx).1.Route.Path]
            ⟨computeApproximateResponseSize (next ctx).1.Response, 1⟩ with
        | error p =>
          refine ⟨_, _, _, none, a123, Or.inr rfl, Or.inr rfl, Or.inr rfl, Or.inl rfl,
            fun _ => v2, Or.inr ⟨p, rfl, ?_⟩⟩
          rintro hdef rfl
          obtain ⟨n, hn, hne⟩ := Prometheus.observeRespSize_cardinality ps3 _ _ h4
          have hn2 : (ps3.respSize.map fun x => x.labelNames).map List.length = some n := by
            rw [Option.map_map]; exact hn
          exact hne
            (arity_of_names _ _ respSize.Args n 3 a123.2.2.2.2.2.1 hdef.2.2.1 hn2 rfl).symm
        | ok ps4 =>
          obtain ⟨l4, v4, a4⟩ := Prometheus.observeRespSize_ok ps3 ps4 _ _ h4
          have a1234 := Prometheus.Adds.trans (some _) (some _) (some _) (some _) a123 a4
            (Or.inr ⟨rfl, rfl⟩) (Or.inr ⟨rfl, rfl⟩) (Or.inr ⟨rfl, rfl⟩) (Or.inl ⟨rfl, rfl⟩)
          have n2 : ps.reqCount.map (fun x => x.labelNames.length) = some 4 := by
            have := congrArg (Option.map List.length) a1.2.2.1
            simp only [Option.map_map] at this
            exact this.symm.trans l2
          have n3 : ps.reqSize.map (fun x => x.labelNames.length) = some 3 := by
            have := congrArg (Option.map List.length) a12.2.2.2.2.1
            simp only [Option.map_map] at this
            exact this.symm.trans l3
          have n4 : ps.respSize.map (fun x => x.labelNames.length) = some 3 := by
            have := congrArg (Option.map List.length) a123.2.2.2.2.2.1
            simp only [Option.map_map] at this
            exact this.symm.trans l4
          exact ⟨_, _, _, _, a1234, Or.inr rfl, Or.inr rfl, Or.inr rfl, Or.inr rfl,
            fun _ => v2, Or.inl ⟨rfl, rfl, rfl, rfl, rfl, n2, l1, n3, n4, v2⟩⟩

theorem Prometheus.Adds.registered {ps ps1 : Prometheus} {c d q r : Option (List GoString)}
    (h : ps.Adds ps1 c d q r) (hreg : ps.Registered) : ps1.Registered := by
  obtain ⟨-, -, a3, a4, a5, a6, -⟩ := h
  exact ⟨a3.trans hreg.1, a4.trans hreg.2.1, a6.trans hreg.2.2.1, a5.trans hreg.2.2.2⟩

theorem Middleware_returns_of_registered (ps : Prometheus) (ctx : Ctx) (next : Handler)
    (elapsed : Int) (hreg : ps.Registered) (hskip : ¬ ps.skips ctx.Path) (status : Int)
    (hst : resolveStatus (next ctx).2 (next ctx).1 = .ok status)
    (hm : ValidString ctx.Route.Method = true) (hh : ValidString (next ctx).1.Hostname = true)
    (hu : ValidString (next ctx).1.Route.Path = true) :
    (Middleware ps ctx next elapsed).out = .returned (next ctx).2 := by
  obtain ⟨hp, hs⟩ := not_skips_any ps ctx.Path hskip
  obtain ⟨rc, rd, rs, rq, la, ml, mp, ss, sk⟩ := ps
  obtain ⟨h1, h2, h3, h4⟩ := hreg
  simp only [Option.map_eq_some'] at h1 h2 h3 h4
  obtain ⟨c, rfl, hc⟩ := h1
  obtain ⟨d, rfl, hd⟩ := h2
  obtain ⟨r, rfl, hr⟩ := h3
  obtain ⟨q, rfl, hq⟩ := h4
  have v3 : [Itoa status, ctx.Route.Method, (next ctx).1.Route.Path].all ValidString = true := by
    simp [Itoa_valid, hm, hu]
  have v4 : [Itoa status, ctx.Route.Method, (next ctx).1.Hostname,
      (next ctx).1.Route.Path].all ValidString = true := by
    simp [Itoa_valid, hm, hh, hu]
  have ec := (c.inc_ok_iff _ [Itoa status, ctx.Route.Method, (next ctx).1.Hostname,
    (next ctx).1.Route.Path]).2 ⟨⟨by rw [hc]; rfl, v4⟩, rfl⟩
  have ed := (d.observe_ok_iff _ [Itoa status, ctx.Route.Method, (next ctx).1.Route.Path]
    ⟨elapsed, Second⟩).2 ⟨⟨by rw [hd]; rfl, v3⟩, rfl⟩
  have eq := (q.observe_ok_iff _ [Itoa status, ctx.Route.Method, (next ctx).1.Route.Path]
    ⟨computeApproximateRequestSize ctx.Request, 1⟩).2 ⟨⟨by rw [hq]; rfl, v3⟩, rfl⟩
  have er := (r.observe_ok_iff _ [Itoa status, ctx.Route.Method, (next ctx).1.Route.Path]
    ⟨computeApproximateResponseSize (next ctx).1.Response, 1⟩).2 ⟨⟨by rw [hr]; rfl, v3⟩, rfl⟩
  simp [Middleware, hp, hs, hst, Prometheus.observeReqDur, Prometheus.incReqCount,
    Prometheus.observeReqSize, Prometheus.observeRespSize, ec, ed, eq, er, Except.map]

/-- A measured call on registered instruments whose status resolves and
whose label values are valid UTF-8 makes all four updates and returns what
the next handler returned. -/
theorem Middleware_of_measured (ps : Prometheus) (ctx : Ctx) (next : Handler) (elapsed : Int)
    (hreg : ps.Registered) (hskip : ¬ ps.skips ctx.Path) (status : Int)
    (hst : resolveStatus (next ctx).2 (next ctx).1 = .ok status)
    (hm : ValidString ctx.Route.Method = true) (hh : ValidString (next ctx).1.Hostname = true)
    (hu : ValidString (next ctx).1.Route.Path = true) :
    (Middleware ps ctx next elapsed).out = .returned (next ctx).2 ∧
      (Middleware ps ctx next elapsed).ps.Registered ∧
      ps.Adds (Middleware ps ctx next elapsed).ps
        (some (Call.countLabels ⟨ctx, next, elapsed⟩ status))
        (some (Call.histLabels ⟨ctx, next, elapsed⟩ status))
        (some (Call.histLabels ⟨ctx, next, elapsed⟩ status))
        (some (Call.histLabels ⟨ctx, next, elapsed⟩ status)) := by
  have hret := Middleware_returns_of_registered ps ctx next elapsed hreg hskip status hst hm hh hu
  obtain ⟨c, d, q, r, hadd, -, -, -, -, -, hcase⟩ :=
    Middleware_measured_adds ps ctx next elapsed hskip status hst
  rcases hcase with ⟨-, rfl, rfl, rfl, rfl, -⟩ | ⟨p, hp, -⟩
  · exact ⟨hret, hadd.registered hreg, hadd⟩
  · rw [hret] at hp
    cases hp

/-! ## Construction -/

theorem registerMetricsLoop_ok {σ : Type} (register : σ → Collector → Option σ)
    (ms : List MetricRef) (reg : σ) (ps : Prometheus) :
    ∃ reg1 ps1, registerMetricsLoop register ms reg ps = .ok (reg1, ps1) ∧
      ps1.metricsPath = ps.metricsPath ∧ ps1.subsystem = ps.subsystem ∧ ps1.skip = ps.skip ∧
      (ps.FromDefinitions → ps1.FromDefinitions) ∧ (ps.Fresh → ps1.Fresh) := by
  induction ms generalizing reg ps with
  | nil => exact ⟨reg, ps, rfl, rfl, rfl, rfl, id, id⟩
  | cons m rest ih =>
    cases m
    · simp only [registerMetricsLoop, MetricRef.deref, NewMetric, reqCount]
      simp only [if_true]
      cases hr : register reg _ with
      | none => exact ⟨reg, ps, rfl, rfl, rfl, rfl, id, id⟩
      | some reg1 =>
        obtain ⟨r2, p2, e, h1, h2, h3, h4, h5⟩ := ih reg1 { ps with reqCount := some _ }
        refine ⟨r2, p2, e, h1, h2, h3, ?_, ?_⟩
        · intro hf
          apply h4
          exact ⟨Or.inr rfl, hf.2.1, hf.2.2.1, hf.2.2.2⟩
        · intro hf
          apply h5
          intro l
          exact ⟨rfl, (hf l).2.1, (hf l).2.2.1, (hf l).2.2.2⟩
    · have hm : NewMetric reqDur ps.subsystem = some (.histogramVec
          { fqName := BuildFQName ps.subsystem reqDur.Name, help := reqDur.Description,
            labelNames := reqDur.Args, buckets := reqDur.Buckets, children := [] }) := by
        simp [NewMetric, reqDur]
      simp only [registerMetricsLoop, MetricRef.deref, hm]
      cases hr : register reg _ with
      | none => exact ⟨reg, ps, rfl, rfl, rfl, rfl, id, id⟩
      | some reg1 =>
        obtain ⟨r2, p2, e, h1, h2, h3, h4, h5⟩ := ih reg1 { ps with reqDur := some _ }
        refine ⟨r2, p2, e, h1, h2, h3, ?_, ?_⟩
        · intro hf
          apply h4
          exact ⟨hf.1, Or.inr rfl, hf.2.2.1, hf.2.2.2⟩
        · intro hf
          apply h5
          intro l
          exact ⟨(hf l).1, rfl, (hf l).2.2.1, (hf l).2.2.2⟩
    · have hm : NewMetric respSize ps.subsystem = some (.histogramVec
          { fqName := BuildFQName ps.subsystem respSize.Name, help := respSize.Description,
            labelNames := respSize.Args, buckets := respSize.Buckets, children := [] }) := by
        simp [NewMetric, respSize]
      simp only [registerMetricsLoop, MetricRef.deref, hm]
      cases hr : register reg _ with
      | none => exact ⟨reg, ps, rfl, rfl, rfl, rfl, id, id⟩
      | some reg1 =>
        obtain ⟨r2, p2, e, h1, h2, h3, h4, h5⟩ := ih reg1 { ps with respSize := some _ }
        refine ⟨r2, p2, e, h1, h2, h3, ?_, ?_⟩
        · intro hf
          apply h4
          exact ⟨hf.1, hf.2.1, Or.inr rfl, hf.2.2.2⟩
        · intro hf
          apply h5
          intro l
          exact ⟨(hf l).1, (hf l).2.1, (hf l).2.2.1, rfl⟩
    · have hm : NewMetric reqSize ps.subsystem = some (.histogramVec
          { fqName := BuildFQName ps.subsystem reqSize.Name, help := reqSize.Description,
            labelNames := reqSize.Args, buckets := reqSize.Buckets, children := [] }) := by
        simp [NewMetric, reqSize]
      simp only [registerMetricsLoop, MetricRef.deref, hm]
      cases hr : register reg _ with
      | none => exact ⟨reg, ps, rfl, rfl, rfl, rfl, id, id⟩
      | some reg1 =>
        obtain ⟨r2, p2, e, h1, h2, h3, h4, h5⟩ := ih reg1 { ps with reqSize := some _ }
        refine ⟨r2, p2, e, h1, h2, h3, ?_, ?_⟩
        · intro hf
          apply h4
          exact ⟨hf.1, hf.2.1, hf.2.2.1, Or.inr rfl⟩
        · intro hf
          apply h5
          intro l
          exact ⟨(hf l).1, (hf l).2.1, rfl, (hf l).2.2.2⟩

/-! ## Size estimators -/

theorem VisitAll_size (header : List (Bytes × Bytes)) (s : Int) :
    VisitAll header
        (fun key value (size : Int) => size + ((key.length : Int) + value.length + 2)) s =
      s + (header.map fun kv => ((kv.1.length : Int) + kv.2.length + 2)).sum := by
  induction header generalizing s with
  | nil => simp [VisitAll]
  | cons kv rest ih =>
    have := ih (s + (kv.1.length + kv.2.length + 2))
    simp only [VisitAll, List.foldl_cons, List.map_cons, List.sum_cons] at this ⊢
    rw [this]
    ring

/-- C5. For every body and every list of header pairs, the request size
estimate and the response size estimate (whatever the status code) are both
`length(body) + 2 + Σ (length(key) + length(value) + 2)`: a function of the
body and the headers alone. -/
theorem computeApproximateSize_eq (body : Bytes) (header : List (Bytes × Bytes))
    (code : Int) :
    computeApproximateRequestSize { Body := body, Header := header } =
        (body.length : Int) + 2 +
          (header.map fun kv => ((kv.1.length : Int) + kv.2.length + 2)).sum ∧
      computeApproximateResponseSize { StatusCode := code, Body := body, Header := header } =
        (body.length : Int) + 2 +
          (header.map fun kv => ((kv.1.length : Int) + kv.2.length + 2)).sum := by
  simp only [computeApproximateRequestSize, computeApproximateResponseSize, VisitAll_size,
    and_self]

/-! ## Bucket ladders -/

/-- C10. The request-size and response-size bucket lists are equal to each
other and to 1024, 2048, 5120, 10240, 102400, 512000, 1048576, 2621440,
5242880, 10485760 (with KB = 1024 and MB = 1048576): ten boundaries, strictly
increasing. -/
theorem sizeBuckets_eq :
    KB = 1024 ∧ MB = 1048576 ∧ reqSizeBuckets = resSizeBuckets ∧
      reqSizeBuckets =
        [1024, 2048, 5120, 10240, 102400, 512000, 1048576, 2621440, 5242880, 10485760] ∧
      reqSizeBuckets.length = 10 ∧ reqSizeBuckets.Sorted (· < ·) := by
  have hKB : KB = 1024 := by norm_num [KB, Nat.shiftLeft_eq]
  have hMB : MB = 1048576 := by norm_num [MB, Nat.shiftLeft_eq]
  have hl : reqSizeBuckets =
      [1024, 2048, 5120, 10240, 102400, 512000, 1048576, 2621440, 5242880, 10485760] := by
    simp only [reqSizeBuckets, hKB, hMB]
    norm_num
  refine ⟨hKB, hMB, rfl, hl, by simp [reqSizeBuckets], ?_⟩
  rw [hl]
  simp only [List.Sorted, List.pairwise_cons, List.mem_cons, List.mem_singleton,
    List.not_mem_nil, forall_eq_or_imp, forall_eq, List.Pairwise.nil, and_true]
  norm_num

/-! ## Options and construction -/

theorem NewOptions_append (opts : List Opt) (o : Opt) :
    NewOptions (opts ++ [o]) = o (NewOptions opts) := by
  simp [NewOptions, List.foldl_append]

theorem NewOptions_fields (specs : List OptionSpec) :
    (NewOptions (specs.map OptionSpec.toOpt)).SubSystem =
        (lastSubSystem specs).getD defaultSubSystem ∧
      (NewOptions (specs.map OptionSpec.toOpt)).MetricPath =
        (lastMetricPath specs).getD defaultMetricPath ∧
      (NewOptions (specs.map OptionSpec.toOpt)).Skip = (lastSkipURL specs).getD [] := by
  induction specs using List.reverseRecOn with
  | nil => simp [NewOptions, lastSubSystem, lastMetricPath, lastSkipURL]
  | append_singleton specs o ih =>
    obtain ⟨h1, h2, h3⟩ := ih
    rw [List.map_append, List.map_singleton, NewOptions_append]
    cases o <;>
      simp [OptionSpec.toOpt, WithSubSystem, WithMetricPath, WithSkipURL, lastSubSystem,
        lastMetricPath, lastSkipURL, List.filterMap_append, List.getLast?_append] <;>
      simp_all [lastSubSystem, lastMetricPath, lastSkipURL]

theorem NewPrometheus_ok {σ : Type} (register : σ → Collector → Option σ) (reg : σ)
    (opts : List Opt) :
    ∃ reg1 ps, NewPrometheus register reg opts = .ok (reg1, ps) ∧
      ps.metricsPath = (NewOptions opts).MetricPath ∧
      ps.subsystem = (NewOptions opts).SubSystem ∧ ps.skip = (NewOptions opts).Skip ∧
      ps.FromDefinitions ∧ ps.Fresh := by
  obtain ⟨r, p, e, h1, h2, h3, h4, h5⟩ := registerMetricsLoop_ok register ([] ++ defaultMetrics)
    reg
    { reqCount := none, reqDur := none, respSize := none, reqSize := none,
      listenAddress := "", metricsList := [] ++ defaultMetrics,
      metricsPath := (NewOptions opts).MetricPath, subsystem := (NewOptions opts).SubSystem,
      skip := (NewOptions opts).Skip }
  refine ⟨r, p, e, h1, h2, h3, h4 ?_, h5 ?_⟩
  · exact ⟨Or.inl rfl, Or.inl rfl, Or.inl rfl, Or.inl rfl⟩
  · intro l; exact ⟨rfl, rfl, rfl, rfl⟩

/-- When the registry accepts every collector it is offered, `NewPrometheus`
binds all four handles. -/
theorem NewPrometheus_registered {σ : Type} (register : σ → Collector → Option σ)
    (hacc : ∀ reg c, ∃ reg1, register reg c = some reg1) (reg : σ) (opts : List Opt) :
    ∃ reg1 ps, NewPrometheus register reg opts = .ok (reg1, ps) ∧ ps.Registered := by
  have hm1 : NewMetric reqCount (NewOptions opts).SubSystem = some (.counterVec
      { fqName := BuildFQName (NewOptions opts).SubSystem reqCount.Name,
        help := reqCount.Description, labelNames := reqCount.Args, children := [] }) := by
    simp [NewMetric, reqCount]
  have hm2 : NewMetric reqDur (NewOptions opts).SubSystem = some (.histogramVec
      { fqName := BuildFQName (NewOptions opts).SubSystem reqDur.Name,
        help := reqDur.Description, labelNames := reqDur.Args, buckets := reqDur.Buckets,
        children := [] }) := by
    simp [NewMetric, reqDur]
  have hm3 : NewMetric respSize (NewOptions opts).SubSystem = some (.histogramVec
      { fqName := BuildFQName (NewOptions opts).SubSystem respSize.Name,
        help := respSize.Description, labelNames := respSize.Args,
        buckets := respSize.Buckets, children := [] }) := by
    simp [NewMetric, respSize]
  have hm4 : NewMetric reqSize (NewOptions opts).SubSystem = some (.histogramVec
      { fqName := BuildFQName (NewOptions opts).SubSystem reqSize.Name,
        help := reqSize.Description, labelNames := reqSize.Args, buckets := reqSize.Buckets,
        children := [] }) := by
    simp [NewMetric, reqSize]
  obtain ⟨r1, h1⟩ := hacc reg (.counterVec
      { fqName := BuildFQName (NewOptions opts).SubSystem reqCount.Name,
        help := reqCount.Description, labelNames := reqCount.Args, children := [] })
  obtain ⟨r2, h2⟩ := hacc r1 (.histogramVec
      { fqName := BuildFQName (NewOptions opts).SubSystem reqDur.Name,
        help := reqDur.Description, labelNames := reqDur.Args, buckets := reqDur.Buckets,
        children := [] })
  obtain ⟨r3, h3⟩ := hacc r2 (.histogramVec
      { fqName := BuildFQName (NewOptions opts).SubSystem respSize.Name,
        help := respSize.Description, labelNames := respSize.Args,
        buckets := respSize.Buckets, children := [] })
  obtain ⟨r4, h4⟩ := hacc r3 (.histogramVec
      { fqName := BuildFQName (NewOptions opts).SubSystem reqSize.Name,
        help := reqSize.Description, labelNames := reqSize.Args, buckets := reqSize.Buckets,
        children := [] })
  refine ⟨r4,
    { reqCount := some
        { fqName := BuildFQName (NewOptions opts).SubSystem reqCount.Name,
          help := reqCount.Description, labelNames := reqCount.Args, children := [] },
      reqDur := some
        { fqName := BuildFQName (NewOptions opts).SubSystem reqDur.Name,
          help := reqDur.Description, labelNames := reqDur.Args, buckets := reqDur.Buckets,
          children := [] },
      respSize := some
        { fqName := BuildFQName (NewOptions opts).SubSystem respSize.Name,
          help := respSize.Description, labelNames := respSize.Args,
          buckets := respSize.Buckets, children := [] },
      reqSize := some
        { fqName := BuildFQName (NewOptions opts).SubSystem reqSize.Name,
          help := reqSize.Description, labelNames := reqSize.Args, buckets := reqSize.Buckets,
          children := [] },
      listenAddress := "", metricsList := defaultMetrics,
      metricsPath := (NewOptions opts).MetricPath, subsystem := (NewOptions opts).SubSystem,
      skip := (NewOptions opts).Skip }, ?_, rfl, rfl, rfl, rfl⟩
  simp only [NewPrometheus, registerMetrics, defaultMetrics, List.nil_append,
    registerMetricsLoop, MetricRef.deref, hm1, hm2, hm3, hm4, h1, h2, h3, h4]

/-- C8. `NewOptions` without options gives subsystem "fiber", metrics path
"/metrics" and an empty skip list. For every list of options built from
`WithSubSystem`, `WithMetricPath` and `WithSkipURL`, each field of the result
is the value of the last option that sets it, or the default when none does
(a later `WithSkipURL` replaces an earlier one), and `NewPrometheus` returns
a value that stores exactly these three fields. -/
theorem NewOptions_last_wins {σ : Type} (register : σ → Collector → Option σ) (reg : σ)
    (specs : List OptionSpec) :
    NewOptions [] = { SubSystem := "fiber", MetricPath := "/metrics", Skip := [] } ∧
      (NewOptions (specs.map OptionSpec.toOpt)).SubSystem = (lastSubSystem specs).getD "fiber" ∧
      (NewOptions (specs.map OptionSpec.toOpt)).MetricPath =
        (lastMetricPath specs).getD "/metrics" ∧
      (NewOptions (specs.map OptionSpec.toOpt)).Skip = (lastSkipURL specs).getD [] ∧
      ∃ reg1 ps, NewPrometheus register reg (specs.map OptionSpec.toOpt) = .ok (reg1, ps) ∧
        ps.subsystem = (lastSubSystem specs).getD "fiber" ∧
        ps.metricsPath = (lastMetricPath specs).getD "/metrics" ∧
        ps.skip = (lastSkipURL specs).getD [] := by
  obtain ⟨h1, h2, h3⟩ := NewOptions_fields specs
  obtain ⟨r, p, e, g1, g2, g3, -, -⟩ := NewPrometheus_ok register reg (specs.map OptionSpec.toOpt)
  refine ⟨rfl, h1, h2, h3, r, p, e, ?_, ?_, ?_⟩
  · rw [g2, h1]; rfl
  · rw [g1, h2]; rfl
  · rw [g3, h3]

/-- The test's call of `NewPrometheus` on an empty registry registers all
four metrics and yields `testMiddleware`. -/
theorem NewPrometheus_testOptions :
    NewPrometheus RegisterByName [] testOptions =
      .ok (["random_request_size_bytes", "random_response_size_bytes",
        "random_request_duration_seconds", "random_requests_total"], testMiddleware) := by
  rfl

theorem testMiddleware_registered : testMiddleware.Registered := by
  decide

/-! ## The middleware on one request -/

/-- C1. For every `Prometheus` value and every request whose path is the
metrics path or an entry of the skip list, `Middleware` leaves the whole
`Prometheus` value, so all four instruments, unchanged, and returns exactly
what the next handler returned. -/
theorem Middleware_skip_unchanged (ps : Prometheus) (ctx : Ctx) (next : Handler)
    (elapsed : Int) (h : ctx.Path = ps.metricsPath ∨ ctx.Path ∈ ps.skip) :
    Middleware ps ctx next elapsed =
      { ps := ps, ctx := (next ctx).1, out := .returned (next ctx).2 } :=
  Middleware_of_skips ps ctx next elapsed h

theorem Middleware_skip_unchanged_witness :
    ((testRequest "/skip").Path = testMiddleware.metricsPath ∨
        (testRequest "/skip").Path ∈ testMiddleware.skip) ∧
      Middleware testMiddleware (testRequest "/skip")
          (failWith "/skip" (.fiber (some { Code := 503, Message := "down" }))) 700 =
        { ps := testMiddleware,
          ctx := (failWith "/skip" (.fiber (some { Code := 503, Message := "down" }))
            (testRequest "/skip")).1,
          out := .returned (failWith "/skip" (.fiber (some { Code := 503, Message := "down" }))
            (testRequest "/skip")).2 } :=
  ⟨by decide, Middleware_skip_unchanged testMiddleware (testRequest "/skip")
    (failWith "/skip" (.fiber (some { Code := 503, Message := "down" }))) 700 (by decide)⟩

/-- C2 as stated fails. (1) On the `Prometheus` that `NewPrometheus()`
returns after the request-duration registration was refused, a measured
`GET /` hits the unset request-duration handle and the request count at its
labels stays 0. (2) On registered instruments, a measured request whose
`Host` is the byte `FF` has its request count refused as not valid UTF-8,
after the request-duration histogram was updated. (3) On registered
instruments, a measured request whose handler returns a nil `*fiber.Error`
panics before any update. -/
theorem Middleware_measured_adds_one_counterexample :
    (NewPrometheus RegisterByName conflictRegistry [] =
        .ok (["fiber_requests_total", "fiber_request_duration_seconds"], conflictMiddleware) ∧
      (testRequest "/").Path ≠ conflictMiddleware.metricsPath ∧
      (∀ skip ∈ conflictMiddleware.skip, (testRequest "/").Path ≠ skip) ∧
      (Middleware conflictMiddleware (testRequest "/") (sendStatus "/" 200)
          1500).ps.reqCountValue (labels ["200", "GET", "example.com", "/"]) ≠
        conflictMiddleware.reqCountValue (labels ["200", "GET", "example.com", "/"]) + 1) ∧
    (testMiddleware.Registered ∧ ¬ testMiddleware.skips (badHostRequest "/").Path ∧
      (Middleware testMiddleware (badHostRequest "/") (sendStatus "/" 200)
          1500).ps.reqCountValue
          [GoString.ofString "200", GoString.ofString "GET", [0xFF], GoString.ofString "/"] ≠
        testMiddleware.reqCountValue
          [GoString.ofString "200", GoString.ofString "GET", [0xFF], GoString.ofString "/"] + 1 ∧
      (Middleware testMiddleware (badHostRequest "/") (sendStatus "/" 200)
          1500).ps.reqDurCount (labels ["200", "GET", "/"]) = 1) ∧
    (¬ testMiddleware.skips (testRequest "/").Path ∧
      Middleware testMiddleware (testRequest "/") (failWith "/" (.fiber none)) 1500 =
        { ps := testMiddleware, ctx := (failWith "/" (.fiber none) (testRequest "/")).1,
          out := .panicked .nilPointer }) :=
  ⟨⟨rfl, by decide, by decide, by decide⟩, ⟨by decide, by decide, by decide, by decide⟩,
    ⟨by decide, Middleware_of_status_panic testMiddleware (testRequest "/")
      (failWith "/" (.fiber none)) 1500 (by decide) .nilPointer rfl⟩⟩

/-- C2, amended. For every request whose path is neither the metrics path
nor equal to an entry of the skip list, on a `Prometheus` whose four handles
are bound, when the status resolves (the next handler returned no error, a
non-nil `*fiber.Error` or an error of another type) and the route method, the
host and the matched route pattern are valid UTF-8, one call of `Middleware`
adds exactly one to the request-count counter at the labels (status, method,
host, route) and to the observation count of the request-duration,
request-size and response-size histograms at the labels (status, method,
route). -/
theorem Middleware_measured_adds_one (ps : Prometheus) (hreg : ps.Registered) (ctx : Ctx)
    (next : Handler) (elapsed : Int) (hpath : ctx.Path ≠ ps.metricsPath)
    (hskip : ∀ skip ∈ ps.skip, ctx.Path ≠ skip) (status : Int)
    (hst : resolveStatus (next ctx).2 (next ctx).1 = .ok status)
    (hm : ValidString ctx.Route.Method = true) (hh : ValidString (next ctx).1.Hostname = true)
    (hu : ValidString (next ctx).1.Route.Path = true) :
    (Middleware ps ctx next elapsed).ps.reqCountValue
          [Itoa status, ctx.Route.Method, (next ctx).1.Hostname, (next ctx).1.Route.Path] =
        ps.reqCountValue
          [Itoa status, ctx.Route.Method, (next ctx).1.Hostname, (next ctx).1.Route.Path] + 1 ∧
      (Middleware ps ctx next elapsed).ps.reqDurCount
          [Itoa status, ctx.Route.Method, (next ctx).1.Route.Path] =
        ps.reqDurCount [Itoa status, ctx.Route.Method, (next ctx).1.Route.Path] + 1 ∧
      (Middleware ps ctx next elapsed).ps.reqSizeCount
          [Itoa status, ctx.Route.Method, (next ctx).1.Route.Path] =
        ps.reqSizeCount [Itoa status, ctx.Route.Method, (next ctx).1.Route.Path] + 1 ∧
      (Middleware ps ctx next elapsed).ps.respSizeCount
          [Itoa status, ctx.Route.Method, (next ctx).1.Route.Path] =
        ps.respSizeCount [Itoa status, ctx.Route.Method, (next ctx).1.Route.Path] + 1 := by
  have hs : ¬ ps.skips ctx.Path := by
    rintro (h | h)
    · exact hpath h
    · exact hskip _ h rfl
  obtain ⟨-, -, hadd⟩ := Middleware_of_measured ps ctx next elapsed hreg hs status hst hm hh hu
  obtain ⟨-, -, -, -, -, -, vc, vd, vq, vr⟩ := hadd
  simp only [Call.countLabels, Call.histLabels] at vc vd vq vr
  exact ⟨by simp [vc], by simp [vd], by simp [vq], by simp [vr]⟩

theorem Middleware_measured_adds_one_witness :
    testMiddleware.Registered ∧ (testRequest "/skip/extra").Path ≠ testMiddleware.metricsPath ∧
      (∀ skip ∈ testMiddleware.skip, (testRequest "/skip/extra").Path ≠ skip) ∧
      resolveStatus (sendStatus "/skip/:id" 200 (testRequest "/skip/extra")).2
          (sendStatus "/skip/:id" 200 (testRequest "/skip/extra")).1 = .ok 200 ∧
      (Middleware testMiddleware (testRequest "/skip/extra") (sendStatus "/skip/:id" 200)
          1200).ps.reqCountValue (labels ["200", "GET", "example.com", "/skip/:id"]) = 0 + 1 :=
  ⟨by decide, by decide, by decide, rfl,
    (Middleware_measured_adds_one testMiddleware (by decide) (testRequest "/skip/extra")
      (sendStatus "/skip/:id" 200) 1200 (by decide) (by decide) 200 rfl (by decide) (by decide)
      (by decide)).1⟩

theorem resolveStatus_cases (err : Option GoError) (ctx1 : Ctx) (code : Int)
    (hcode : match err with
      | some (.fiber (some e)) => code = e.Code
      | some (.fiber none) => False
      | some (.other _) => code = 500
      | none => code = ctx1.Response.StatusCode) :
    resolveStatus err ctx1 = .ok code := by
  cases err with
  | none => simp only at hcode; rw [hcode]; rfl
  | some e =>
    cases e with
    | fiber e =>
      cases e with
      | none => exact absurd hcode id
      | some e => simp only at hcode; rw [hcode]; rfl
    | other msg => simp only at hcode; rw [hcode]; rfl

/-- C3 as stated fails. The claim gives every measured request a code
label. A handler that returns a nil `*fiber.Error` returns an error that
carries no status code, which the claim labels 500; the code passes the type
assertion, reads the code through the nil pointer and panics: the
instruments are left exactly as they were, so no code label is used at all,
and no child exists under the code label 500. -/
theorem Middleware_status_label_counterexample :
    testMiddleware.Registered ∧ ¬ testMiddleware.skips (testRequest "/orders/7").Path ∧
      Middleware testMiddleware (testRequest "/orders/7") (failWith "/orders/:id" (.fiber none))
          1200 =
        { ps := testMiddleware,
          ctx := (failWith "/orders/:id" (.fiber none) (testRequest "/orders/7")).1,
          out := .panicked .nilPointer } ∧
      (Middleware testMiddleware (testRequest "/orders/7") (failWith "/orders/:id" (.fiber none))
          1200).ps.reqCountValue (labels ["500", "GET", "example.com", "/orders/:id"]) ≠
        testMiddleware.reqCountValue (labels ["500", "GET", "example.com", "/orders/:id"]) + 1 :=
  ⟨by decide, by decide,
    Middleware_of_status_panic testMiddleware (testRequest "/orders/7")
      (failWith "/orders/:id" (.fiber none)) 1200 (by decide) .nilPointer rfl,
    by decide⟩

/-- C3, amended. For every measured request, let the status be: the code
carried by the error when the next handler returned a non-nil
`*fiber.Error`; 500 when it returned an error of any other type; the status
code written to the response when it returned no error. On every
`Prometheus`, no child whose code label is not the decimal form of that
status changes in any of the four instruments. On registered instruments
and with a route method, host and route pattern that are valid UTF-8, the
children under that code label (with the method, host and route of the
request) grow by one in all four instruments. -/
theorem Middleware_status_label (ps : Prometheus) (ctx : Ctx) (next : Handler) (elapsed : Int)
    (hskip : ¬ ps.skips ctx.Path) (code : Int)
    (hcode : match (next ctx).2 with
      | some (.fiber (some e)) => code = e.Code
      | some (.fiber none) => False
      | some (.other _) => code = 500
      | none => code = (next ctx).1.Response.StatusCode) :
    (∀ l : List GoString, l.head? ≠ some (Itoa code) →
        (Middleware ps ctx next elapsed).ps.reqCountValue l = ps.reqCountValue l ∧
        (Middleware ps ctx next elapsed).ps.reqDurCount l = ps.reqDurCount l ∧
        (Middleware ps ctx next elapsed).ps.reqSizeCount l = ps.reqSizeCount l ∧
        (Middleware ps ctx next elapsed).ps.respSizeCount l = ps.respSizeCount l) ∧
      (ps.Registered → ValidString ctx.Route.Method = true →
        ValidString (next ctx).1.Hostname = true → ValidString (next ctx).1.Route.Path = true →
        (Middleware ps ctx next elapsed).ps.reqCountValue
            [Itoa code, ctx.Route.Method, (next ctx).1.Hostname, (next ctx).1.Route.Path] =
          ps.reqCountValue
            [Itoa code, ctx.Route.Method, (next ctx).1.Hostname, (next ctx).1.Route.Path] + 1 ∧
        (Middleware ps ctx next elapsed).ps.reqDurCount
            [Itoa code, ctx.Route.Method, (next ctx).1.Route.Path] =
          ps.reqDurCount [Itoa code, ctx.Route.Method, (next ctx).1.Route.Path] + 1 ∧
        (Middleware ps ctx next elapsed).ps.reqSizeCount
            [Itoa code, ctx.Route.Method, (next ctx).1.Route.Path] =
          ps.reqSizeCount [Itoa code, ctx.Route.Method, (next ctx).1.Route.Path] + 1 ∧
        (Middleware ps ctx next elapsed).ps.respSizeCount
            [Itoa code, ctx.Route.Method, (next ctx).1.Route.Path] =
          ps.respSizeCount [Itoa code, ctx.Route.Method, (next ctx).1.Route.Path] + 1) := by
  have hst := resolveStatus_cases (next ctx).2 (next ctx).1 code hcode
  constructor
  · intro l hl
    obtain ⟨c, d, q, r, hadd, hc, hd, hq, hr, -, -⟩ :=
      Middleware_measured_adds ps ctx next elapsed hskip code hst
    obtain ⟨-, -, -, -, -, -, vc, vd, vq, vr⟩ := hadd
    have n4 : c ≠ some l := by
      rcases hc with rfl | rfl
      · simp
      · intro h
        rw [Option.some.injEq] at h
        exact hl (by rw [← h]; rfl)
    have key : ∀ x : Option (List GoString),
        (x = none ∨ x = some (Call.histLabels ⟨ctx, next, elapsed⟩ code)) → x ≠ some l := by
      intro x hx
      rcases hx with rfl | rfl
      · simp
      · intro h
        rw [Option.some.injEq] at h
        exact hl (by rw [← h]; rfl)
    exact ⟨by rw [vc, if_neg n4]; rfl, by rw [vd, if_neg (key d hd)]; rfl,
      by rw [vq, if_neg (key q hq)]; rfl, by rw [vr, if_neg (key r hr)]; rfl⟩
  · intro hreg hm hh hu
    obtain ⟨-, -, hadd⟩ :=
      Middleware_of_measured ps ctx next elapsed hreg hskip code hst hm hh hu
    obtain ⟨-, -, -, -, -, -, vc, vd, vq, vr⟩ := hadd
    simp only [Call.countLabels, Call.histLabels] at vc vd vq vr
    exact ⟨by simp [vc], by simp [vd], by simp [vq], by simp [vr]⟩

theorem Middleware_status_label_witness :
    ¬ testMiddleware.skips (testRequest "/orders/7").Path ∧ testMiddleware.Registered ∧
      (Middleware testMiddleware (testRequest "/orders/7")
          (failWith "/orders/:id" (.fiber (some { Code := 404, Message := "no such order" })))
          1200).ps.reqCountValue (labels ["404", "GET", "example.com", "/orders/:id"]) = 0 + 1 ∧
      (Middleware testMiddleware (testRequest "/orders/7")
          (failWith "/orders/:id" (.fiber (some { Code := 404, Message := "no such order" })))
          1200).ps.reqCountValue (labels ["500", "GET", "example.com", "/orders/:id"]) = 0 :=
  ⟨by decide, by decide,
    ((Middleware_status_label testMiddleware (testRequest "/orders/7")
      (failWith "/orders/:id" (.fiber (some { Code := 404, Message := "no such order" }))) 1200
      (by decide) 404 rfl).2 (by decide) (by decide) (by decide) (by decide)).1,
    ((Middleware_status_label testMiddleware (testRequest "/orders/7")
      (failWith "/orders/:id" (.fiber (some { Code := 404, Message := "no such order" }))) 1200
      (by decide) 404 rfl).1 (labels ["500", "GET", "example.com", "/orders/:id"])
      (by decide)).1⟩

/-! ## What the middleware returns -/

theorem Middleware_returned_eq (ps : Prometheus) (ctx : Ctx) (next : Handler) (elapsed : Int)
    (e : Option GoError) (he : (Middleware ps ctx next elapsed).out = .returned e) :
    e = (next ctx).2 := by
  by_cases hs : ps.skips ctx.Path
  · rw [Middleware_of_skips ps ctx next elapsed hs] at he
    simpa using he.symm
  · cases hst : resolveStatus (next ctx).2 (next ctx).1 with
    | error p =>
      rw [Middleware_of_status_panic ps ctx next elapsed hs p hst] at he
      cases he
    | ok status =>
      obtain ⟨c, d, q, r, -, -, -, -, -, -, hcase⟩ :=
        Middleware_measured_adds ps ctx next elapsed hs status hst
      rcases hcase with ⟨hret, -⟩ | ⟨p, hp, -⟩
      · rw [hret] at he
        simpa using he.symm
      · rw [hp] at he
        cases he

/-- C4 as stated fails: in each of three measured requests `Middleware`
returns nothing and panics. (1) A second `NewPrometheus()` in one process
binds no handle, and the first update goes through a nil handle. (2) On
registered instruments a `Host` that is not valid UTF-8 is refused as a
label value. (3) On registered instruments a nil `*fiber.Error` from the
next handler is dereferenced, so this error is not handed on. -/
theorem Middleware_returns_next_counterexample :
    (NewPrometheus RegisterByName
          ["fiber_request_size_bytes", "fiber_response_size_bytes",
            "fiber_request_duration_seconds", "fiber_requests_total"] [] =
        .ok (["fiber_request_size_bytes", "fiber_response_size_bytes",
          "fiber_request_duration_seconds", "fiber_requests_total"], unboundMiddleware) ∧
      ¬ unboundMiddleware.skips (testRequest "/").Path ∧
      (Middleware unboundMiddleware (testRequest "/") (sendStatus "/" 200) 1500).out =
        .panicked .nilPointer) ∧
    (testMiddleware.Registered ∧ ¬ testMiddleware.skips (badHostRequest "/").Path ∧
      (Middleware testMiddleware (badHostRequest "/") (sendStatus "/" 200) 1500).out =
        .panicked .invalidLabelValue) ∧
    (¬ testMiddleware.skips (testRequest "/").Path ∧
      (Middleware testMiddleware (testRequest "/") (failWith "/" (.fiber none)) 1500).out =
        .panicked .nilPointer) :=
  ⟨⟨rfl, by decide, rfl⟩, ⟨by decide, by decide, rfl⟩, ⟨by decide, rfl⟩⟩

/-- On a `Prometheus` as `NewPrometheus` builds it, `Middleware` returns
the value of the next handler exactly when the request is skipped, or all
four handles are bound, the status resolves and the route method, the host
and the matched route pattern are valid UTF-8. -/
theorem Middleware_returns_iff (ps : Prometheus) (hdef : ps.FromDefinitions) (ctx : Ctx)
    (next : Handler) (elapsed : Int) :
    (Middleware ps ctx next elapsed).out = .returned (next ctx).2 ↔
      ps.skips ctx.Path ∨
        (ps.Registered ∧ (∃ status, resolveStatus (next ctx).2 (next ctx).1 = .ok status) ∧
          ValidString ctx.Route.Method = true ∧ ValidString (next ctx).1.Hostname = true ∧
          ValidString (next ctx).1.Route.Path = true) := by
  constructor
  · intro hret
    by_cases hs : ps.skips ctx.Path
    · exact Or.inl hs
    · right
      cases hst : resolveStatus (next ctx).2 (next ctx).1 with
      | error p =>
        rw [Middleware_of_status_panic ps ctx next elapsed hs p hst] at hret
        cases hret
      | ok status =>
        obtain ⟨c, d, q, r, -, -, -, -, -, -, hcase⟩ :=
          Middleware_measured_adds ps ctx next elapsed hs status hst
        rcases hcase with ⟨-, -, -, -, -, n1, n2, n3, n4, hval⟩ | ⟨p, hp, -⟩
        · have up : ∀ (x : Option (List String)) (names : List String) (k : Nat),
              (x = none ∨ x = some names) → x.map List.length = some k → x = some names := by
            intro x names k hx hk
            rcases hx with h | h
            · rw [h] at hk; cases hk
            · exact h
          have m1 := up _ _ 4 hdef.1 (by rw [Option.map_map]; exact n1)
          have m2 := up _ _ 3 hdef.2.1 (by rw [Option.map_map]; exact n2)
          have m3 := up _ _ 3 hdef.2.2.1 (by rw [Option.map_map]; exact n4)
          have m4 := up _ _ 3 hdef.2.2.2 (by rw [Option.map_map]; exact n3)
          simp only [Call.countLabels, List.all_cons, List.all_nil, Bool.and_true,
            Bool.and_eq_true] at hval
          exact ⟨⟨m1, m2, m3, m4⟩, ⟨status, rfl⟩, hval.2.1, hval.2.2.1, hval.2.2.2⟩
        · rw [hp] at hret
          cases hret
  · rintro (hs | ⟨hreg, ⟨status, hst⟩, hm, hh, hu⟩)
    · rw [Middleware_of_skips ps ctx next elapsed hs]
    · by_cases hs : ps.skips ctx.Path
      · rw [Middleware_of_skips ps ctx next elapsed hs]
      · exact Middleware_returns_of_registered ps ctx next elapsed hreg hs status hst hm hh hu

/-- C4, amended. For every request and every outcome of the next handler, a
value that `Middleware` returns is the value the next handler returned (no
error is replaced, no error becomes success, no success becomes an error);
and `Middleware` does return it for every skipped request, and for every
measured request when all four handles are bound, the status resolves (the
next handler returned no error, a non-nil `*fiber.Error` or an error of
another type) and the route method, the host and the matched route pattern
are valid UTF-8. -/
theorem Middleware_returns_next (ps : Prometheus) (ctx : Ctx) (next : Handler)
    (elapsed : Int) :
    (∀ e, (Middleware ps ctx next elapsed).out = .returned e → e = (next ctx).2) ∧
      (ps.skips ctx.Path ∨
          (ps.Registered ∧ (∃ status, resolveStatus (next ctx).2 (next ctx).1 = .ok status) ∧
            ValidString ctx.Route.Method = true ∧ ValidString (next ctx).1.Hostname = true ∧
            ValidString (next ctx).1.Route.Path = true) →
        (Middleware ps ctx next elapsed).out = .returned (next ctx).2) := by
  refine ⟨fun e he => Middleware_returned_eq ps ctx next elapsed e he, ?_⟩
  rintro (hs | ⟨hreg, ⟨status, hst⟩, hm, hh, hu⟩)
  · rw [Middleware_of_skips ps ctx next elapsed hs]
  · by_cases hs : ps.skips ctx.Path
    · rw [Middleware_of_skips ps ctx next elapsed hs]
    · exact Middleware_returns_of_registered ps ctx next elapsed hreg hs status hst hm hh hu

theorem Middleware_returns_next_witness :
    (testMiddleware.skips (testRequest "/orders/7").Path ∨
        (testMiddleware.Registered ∧
          (∃ status, resolveStatus
            (failWith "/orders/:id" (.other "connection reset") (testRequest "/orders/7")).2
            (failWith "/orders/:id" (.other "connection reset") (testRequest "/orders/7")).1 =
              .ok status) ∧
          ValidString (testRequest "/orders/7").Route.Method = true ∧
          ValidString
            (failWith "/orders/:id" (.other "connection reset")
              (testRequest "/orders/7")).1.Hostname = true ∧
          ValidString
            (failWith "/orders/:id" (.other "connection reset")
              (testRequest "/orders/7")).1.Route.Path = true)) ∧
      (Middleware testMiddleware (testRequest "/orders/7")
          (failWith "/orders/:id" (.other "connection reset")) 1200).out =
        .returned (some (.other "connection reset")) :=
  ⟨Or.inr ⟨by decide, ⟨500, rfl⟩, by decide, by decide, by decide⟩,
    (Middleware_returns_next testMiddleware (testRequest "/orders/7")
      (failWith "/orders/:id" (.other "connection reset")) 1200).2
      (Or.inr ⟨by decide, ⟨500, rfl⟩, by decide, by decide, by decide⟩)⟩

/-! ## Label values against label names -/

theorem zip_four (n1 n2 n3 n4 : String) (a b c d : GoString) (l : List GoString) :
    (l.length = 4 ∧ [n1, n2, n3, n4].zip l = [(n1, a), (n2, b), (n3, c), (n4, d)]) ↔
      l = [a, b, c, d] := by
  constructor
  · rintro ⟨hl, hz⟩
    match l, hl, hz with
    | [x, y, z, w], _, hz => simpa using hz
  · rintro rfl
    simp

theorem zip_three (n1 n2 n3 : String) (a b c : GoString) (l : List GoString) :
    (l.length = 3 ∧ [n1, n2, n3].zip l = [(n1, a), (n2, b), (n3, c)]) ↔ l = [a, b, c] := by
  constructor
  · rintro ⟨hl, hz⟩
    match l, hl, hz with
    | [x, y, z], _, hz => simpa using hz
  · rintro rfl
    simp

theorem Middleware_no_labelCardinality (ps : Prometheus) (hdef : ps.FromDefinitions) (ctx : Ctx)
    (next : Handler) (elapsed : Int) :
    (Middleware ps ctx next elapsed).out ≠ .panicked .labelCardinality := by
  by_cases hskip : ps.skips ctx.Path
  · rw [Middleware_of_skips ps ctx next elapsed hskip]
    intro h
    cases h
  · cases hst : resolveStatus (next ctx).2 (next ctx).1 with
    | error p =>
      rw [Middleware_of_status_panic ps ctx next elapsed hskip p hst]
      intro h
      have hp : p = .labelCardinality := by simpa using h
      subst hp
      unfold resolveStatus at hst
      split at hst <;> cases hst
    | ok status =>
      obtain ⟨c, d, q, r, -, -, -, -, -, -, hcase⟩ :=
        Middleware_measured_adds ps ctx next elapsed hskip status hst
      rcases hcase with ⟨hret, -⟩ | ⟨p, hp, hne⟩
      · rw [hret]
        intro h
        cases h
      · rw [hp]
        intro h
        exact hne hdef (by simpa using h)

/-- What a call changes: a child of any of the four instruments whose count
differs after the call is keyed by the label values of the call. -/
theorem Middleware_changes (ps : Prometheus) (ctx : Ctx) (next : Handler) (elapsed : Int)
    (l : List GoString) :
    ((Middleware ps ctx next elapsed).ps.reqCountValue l ≠ ps.reqCountValue l →
        ∃ status, resolveStatus (next ctx).2 (next ctx).1 = .ok status ∧
          l = [Itoa status, ctx.Route.Method, (next ctx).1.Hostname, (next ctx).1.Route.Path]) ∧
      (((Middleware ps ctx next elapsed).ps.reqDurCount l ≠ ps.reqDurCount l ∨
          (Middleware ps ctx next elapsed).ps.reqSizeCount l ≠ ps.reqSizeCount l ∨
          (Middleware ps ctx next elapsed).ps.respSizeCount l ≠ ps.respSizeCount l) →
        ∃ status, resolveStatus (next ctx).2 (next ctx).1 = .ok status ∧
          l = [Itoa status, ctx.Route.Method, (next ctx).1.Route.Path]) := by
  by_cases hskip : ps.skips ctx.Path
  · rw [Middleware_of_skips ps ctx next elapsed hskip]
    exact ⟨fun h => absurd rfl h, fun h => by rcases h with h | h | h <;> exact absurd rfl h⟩
  · cases hst : resolveStatus (next ctx).2 (next ctx).1 with
    | error p =>
      rw [Middleware_of_status_panic ps ctx next elapsed hskip p hst]
      exact ⟨fun h => absurd rfl h, fun h => by rcases h with h | h | h <;> exact absurd rfl h⟩
    | ok status =>
      obtain ⟨c, d, q, r, hadd, hc, hd, hq, hr, -, -⟩ :=
        Middleware_measured_adds ps ctx next elapsed hskip status hst
      obtain ⟨-, -, -, -, -, -, vc, vd, vq, vr⟩ := hadd
      simp only [Call.countLabels, Call.histLabels] at hc hd hq hr
      have key : ∀ (x : Option (List GoString)) (lv : List GoString) (a b : Nat),
          (x = none ∨ x = some lv) → a = b + (if x = some l then 1 else 0) → a ≠ b → l = lv := by
        intro x lv a b hx hab hne
        rcases hx with rfl | rfl
        · simp at hab; exact absurd hab hne
        · by_cases h : lv = l
          · exact h.symm
          · simp [h] at hab; exact absurd hab hne
      refine ⟨fun h => ⟨status, rfl, key c _ _ _ hc (vc l) h⟩, fun h => ⟨status, rfl, ?_⟩⟩
      rcases h with h | h | h
      · exact key d _ _ _ hd (vd l) h
      · exact key q _ _ _ hq (vq l) h
      · exact key r _ _ _ hr (vr l) h

/-- C9. The definitions give request count the four label names code,
method, host, url and the three histograms the three names code, method,
url. On a `Prometheus` whose handles come from these definitions no call of
`Middleware` ends in the label-arity panic. On every `Prometheus`, a child
that a call changes is keyed by as many values as the definition has names,
pairing, in order, code with the status, method with the method, host with
the host and url with the route. On registered instruments, when the status
resolves and the method, host and route are valid UTF-8, each update of a
measured request adds one to exactly the child so keyed. -/
theorem Middleware_label_arity (ps : Prometheus) (hdef : ps.FromDefinitions) (ctx : Ctx)
    (next : Handler) (elapsed : Int) :
    (reqCount.Args = ["code", "method", "host", "url"] ∧ reqDur.Args = ["code", "method", "url"] ∧
        reqSize.Args = ["code", "method", "url"] ∧ respSize.Args = ["code", "method", "url"]) ∧
      (Middleware ps ctx next elapsed).out ≠ .panicked .labelCardinality ∧
      (∀ l : List GoString,
        ((Middleware ps ctx next elapsed).ps.reqCountValue l ≠ ps.reqCountValue l →
          ∃ status, resolveStatus (next ctx).2 (next ctx).1 = .ok status ∧
            l.length = reqCount.Args.length ∧ reqCount.Args.zip l =
              [("code", Itoa status), ("method", ctx.Route.Method),
                ("host", (next ctx).1.Hostname), ("url", (next ctx).1.Route.Path)]) ∧
        ((Middleware ps ctx next elapsed).ps.reqDurCount l ≠ ps.reqDurCount l →
          ∃ status, resolveStatus (next ctx).2 (next ctx).1 = .ok status ∧
            l.length = reqDur.Args.length ∧ reqDur.Args.zip l =
              [("code", Itoa status), ("method", ctx.Route.Method),
                ("url", (next ctx).1.Route.Path)]) ∧
        ((Middleware ps ctx next elapsed).ps.reqSizeCount l ≠ ps.reqSizeCount l →
          ∃ status, resolveStatus (next ctx).2 (next ctx).1 = .ok status ∧
            l.length = reqSize.Args.length ∧ reqSize.Args.zip l =
              [("code", Itoa status), ("method", ctx.Route.Method),
                ("url", (next ctx).1.Route.Path)]) ∧
        ((Middleware ps ctx next elapsed).ps.respSizeCount l ≠ ps.respSizeCount l →
          ∃ status, resolveStatus (next ctx).2 (next ctx).1 = .ok status ∧
            l.length = respSize.Args.length ∧ respSize.Args.zip l =
              [("code", Itoa status), ("method", ctx.Route.Method),
                ("url", (next ctx).1.Route.Path)])) ∧
      (ps.Registered → ¬ ps.skips ctx.Path →
        ∀ status, resolveStatus (next ctx).2 (next ctx).1 = .ok status →
        ValidString ctx.Route.Method = true → ValidString (next ctx).1.Hostname = true →
        ValidString (next ctx).1.Route.Path = true → ∀ l : List GoString,
        (Middleware ps ctx next elapsed).ps.reqCountValue l = ps.reqCountValue l +
            (if l.length = reqCount.Args.length ∧ reqCount.Args.zip l =
                [("code", Itoa status), ("method", ctx.Route.Method),
                  ("host", (next ctx).1.Hostname), ("url", (next ctx).1.Route.Path)]
              then 1 else 0) ∧
          (Middleware ps ctx next elapsed).ps.reqDurCount l = ps.reqDurCount l +
            (if l.length = reqDur.Args.length ∧ reqDur.Args.zip l =
                [("code", Itoa status), ("method", ctx.Route.Method),
                  ("url", (next ctx).1.Route.Path)]
              then 1 else 0) ∧
          (Middleware ps ctx next elapsed).ps.reqSizeCount l = ps.reqSizeCount l +
            (if l.length = reqSize.Args.length ∧ reqSize.Args.zip l =
                [("code", Itoa status), ("method", ctx.Route.Method),
                  ("url", (next ctx).1.Route.Path)]
              then 1 else 0) ∧
          (Middleware ps ctx next elapsed).ps.respSizeCount l = ps.respSizeCount l +
            (if l.length = respSize.Args.length ∧ respSize.Args.zip l =
                [("code", Itoa status), ("method", ctx.Route.Method),
                  ("url", (next ctx).1.Route.Path)]
              then 1 else 0)) := by
  have e4 : reqCount.Args.length = 4 := rfl
  have e3d : reqDur.Args.length = 3 := rfl
  have e3q : reqSize.Args.length = 3 := rfl
  have e3r : respSize.Args.length = 3 := rfl
  have a4 : reqCount.Args = ["code", "method", "host", "url"] := rfl
  have a3d : reqDur.Args = ["code", "method", "url"] := rfl
  have a3q : reqSize.Args = ["code", "method", "url"] := rfl
  have a3r : respSize.Args = ["code", "method", "url"] := rfl
  refine ⟨⟨rfl, rfl, rfl, rfl⟩, Middleware_no_labelCardinality ps hdef ctx next elapsed, ?_, ?_⟩
  · intro l
    obtain ⟨hc, hh⟩ := Middleware_changes ps ctx next elapsed l
    rw [e4, e3d, e3q, e3r, a4, a3d, a3q, a3r]
    simp only [zip_four, zip_three]
    exact ⟨hc, fun h => hh (Or.inl h), fun h => hh (Or.inr (Or.inl h)),
      fun h => hh (Or.inr (Or.inr h))⟩
  · intro hreg hskip status hst hm hh hu l
    obtain ⟨-, -, hadd⟩ :=
      Middleware_of_measured ps ctx next elapsed hreg hskip status hst hm hh hu
    obtain ⟨-, -, -, -, -, -, vc, vd, vq, vr⟩ := hadd
    simp only [Call.countLabels, Call.histLabels, Option.some.injEq] at vc vd vq vr
    rw [e4, e3d, e3q, e3r, a4, a3d, a3q, a3r]
    simp only [zip_four, zip_three]
    refine ⟨?_, ?_, ?_, ?_⟩
    · rw [vc l]; congr 1; simp only [eq_comm]
    · rw [vd l]; congr 1; simp only [eq_comm]
    · rw [vq l]; congr 1; simp only [eq_comm]
    · rw [vr l]; congr 1; simp only [eq_comm]

theorem Middleware_label_arity_witness :
    testMiddleware.FromDefinitions ∧ testMiddleware.Registered ∧
      ¬ testMiddleware.skips (testRequest "/orders/7").Path ∧
      (Middleware testMiddleware (testRequest "/orders/7") (sendStatus "/orders/:id" 200)
        1200).out ≠ .panicked .labelCardinality ∧
      (Middleware testMiddleware (testRequest "/orders/7") (sendStatus "/orders/:id" 200)
        1200).ps.reqCountValue (labels ["200", "GET", "example.com", "/orders/:id"]) = 0 + 1 ∧
      (Middleware testMiddleware (testRequest "/orders/7") (sendStatus "/orders/:id" 200)
        1200).ps.reqCountValue (labels ["GET", "200", "example.com", "/orders/:id"]) = 0 + 0 :=
  ⟨by decide, by decide, by decide,
    (Middleware_label_arity testMiddleware (by decide) (testRequest "/orders/7")
      (sendStatus "/orders/:id" 200) 1200).2.1,
    ((Middleware_label_arity testMiddleware (by decide) (testRequest "/orders/7")
      (sendStatus "/orders/:id" 200) 1200).2.2.2 (by decide) (by decide) 200 rfl (by decide)
      (by decide) (by decide) (labels ["200", "GET", "example.com", "/orders/:id"])).1,
    ((Middleware_label_arity testMiddleware (by decide) (testRequest "/orders/7")
      (sendStatus "/orders/:id" 200) 1200).2.2.2 (by decide) (by decide) 200 rfl (by decide)
      (by decide) (by decide) (labels ["GET", "200", "example.com", "/orders/:id"])).1⟩

/-! ## Registration -/

/-- C6 as stated fails. On a registry that already holds
`fiber_request_duration_seconds`, `NewPrometheus()` binds the request-count
handle and returns at the refused request-duration registration: the
response-size and request-size handles stay unset and their names never
reach the registry, although registering either collector on the registry
reached would be accepted. -/
theorem registerMetrics_refusal_counterexample :
    NewPrometheus RegisterByName conflictRegistry [] =
        .ok (["fiber_requests_total", "fiber_request_duration_seconds"], conflictMiddleware) ∧
      conflictMiddleware.reqCount.isSome = true ∧ conflictMiddleware.reqDur.isSome = false ∧
      conflictMiddleware.respSize.isSome = false ∧ conflictMiddleware.reqSize.isSome = false ∧
      ((NewMetric respSize "fiber").bind
          (RegisterByName ["fiber_requests_total", "fiber_request_duration_seconds"])).isSome =
        true ∧
      ((NewMetric reqSize "fiber").bind
          (RegisterByName ["fiber_requests_total", "fiber_request_duration_seconds"])).isSome =
        true :=
  ⟨rfl, by decide, by decide, by decide, by decide, by decide, by decide⟩

/-- C6, amended. `registerMetrics` registers the metrics of the list in
order and returns at the first refused registration. So, for every registry
behaviour, the handle of a metric is bound exactly when its own registration
and the registrations of all metrics before it in the list (request count,
request duration, response size, request size) were accepted: a refused
registration leaves unset the handle of its metric and the handles of all
metrics after it, and the handles of the metrics before it stay bound. -/
theorem registerMetrics_binds_until_refusal {σ : Type} (register : σ → Collector → Option σ)
    (reg : σ) (opts : List Opt) :
    ∃ reg1 ps, NewPrometheus register reg opts = .ok (reg1, ps) ∧
      ps.reqCount.isSome =
        (registerAll register (NewOptions opts).SubSystem [.reqCount] reg).isSome ∧
      ps.reqDur.isSome =
        (registerAll register (NewOptions opts).SubSystem [.reqCount, .reqDur] reg).isSome ∧
      ps.respSize.isSome =
        (registerAll register (NewOptions opts).SubSystem [.reqCount, .reqDur, .respSize]
          reg).isSome ∧
      ps.reqSize.isSome =
        (registerAll register (NewOptions opts).SubSystem
          [.reqCount, .reqDur, .respSize, .reqSize] reg).isSome := by
  have hm1 : NewMetric reqCount (NewOptions opts).SubSystem = some (.counterVec
      { fqName := BuildFQName (NewOptions opts).SubSystem reqCount.Name,
        help := reqCount.Description, labelNames := reqCount.Args, children := [] }) := by
    simp [NewMetric, reqCount]
  have hm2 : NewMetric reqDur (NewOptions opts).SubSystem = some (.histogramVec
      { fqName := BuildFQName (NewOptions opts).SubSystem reqDur.Name,
        help := reqDur.Description, labelNames := reqDur.Args, buckets := reqDur.Buckets,
        children := [] }) := by
    simp [NewMetric, reqDur]
  have hm3 : NewMetric respSize (NewOptions opts).SubSystem = some (.histogramVec
      { fqName := BuildFQName (NewOptions opts).SubSystem respSize.Name,
        help := respSize.Description, labelNames := respSize.Args,
        buckets := respSize.Buckets, children := [] }) := by
    simp [NewMetric, respSize]
  have hm4 : NewMetric reqSize (NewOptions opts).SubSystem = some (.histogramVec
      { fqName := BuildFQName (NewOptions opts).SubSystem reqSize.Name,
        help := reqSize.Description, labelNames := reqSize.Args, buckets := reqSize.Buckets,
        children := [] }) := by
    simp [NewMetric, reqSize]
  simp only [NewPrometheus, registerMetrics, defaultMetrics, List.nil_append,
    registerMetricsLoop, registerAll, MetricRef.deref, hm1, hm2, hm3, hm4, Option.some_bind]
  cases h1 : register reg (.counterVec
      { fqName := BuildFQName (NewOptions opts).SubSystem reqCount.Name,
        help := reqCount.Description, labelNames := reqCount.Args, children := [] }) with
  | none => exact ⟨_, _, rfl, by simp⟩
  | some r1 =>
    simp only [Option.some_bind]
    cases h2 : register r1 (.histogramVec
        { fqName := BuildFQName (NewOptions opts).SubSystem reqDur.Name,
          help := reqDur.Description, labelNames := reqDur.Args, buckets := reqDur.Buckets,
          children := [] }) with
    | none => exact ⟨_, _, rfl, by simp⟩
    | some r2 =>
      simp only [Option.some_bind]
      cases h3 : register r2 (.histogramVec
          { fqName := BuildFQName (NewOptions opts).SubSystem respSize.Name,
            help := respSize.Description, labelNames := respSize.Args,
            buckets := respSize.Buckets, children := [] }) with
      | none => exact ⟨_, _, rfl, by simp⟩
      | some r3 =>
        simp only [Option.some_bind]
        cases h4 : register r3 (.histogramVec
            { fqName := BuildFQName (NewOptions opts).SubSystem reqSize.Name,
              help := reqSize.Description, labelNames := reqSize.Args,
              buckets := reqSize.Buckets, children := [] }) with
        | none => exact ⟨_, _, rfl, by simp⟩
        | some r4 => exact ⟨_, _, rfl, by simp⟩

/-! ## Runs of requests -/

theorem measuredWith_congr (ps ps1 : Prometheus) (h1 : ps1.metricsPath = ps.metricsPath)
    (h2 : ps1.skip = ps.skip) (l : List GoString) (calls : List Call) :
    measuredWith ps1 l calls = measuredWith ps l calls := by
  simp only [measuredWith, Prometheus.skips, h1, h2]

/-- One call on registered instruments, seen from the request-count child
at `l`: the instruments stay registered, and the child grows by one exactly
when `l` is valid UTF-8 and the call is measured with these label values. -/
theorem Middleware_step_reqCount (ps : Prometheus) (hreg : ps.Registered) (c : Call)
    (l : List GoString) :
    (Middleware ps c.ctx c.next c.elapsed).ps.Registered ∧
      (Middleware ps c.ctx c.next c.elapsed).ps.metricsPath = ps.metricsPath ∧
      (Middleware ps c.ctx c.next c.elapsed).ps.skip = ps.skip ∧
      (Middleware ps c.ctx c.next c.elapsed).ps.reqCountValue l = ps.reqCountValue l +
        if l.all ValidString = true ∧ ¬ ps.skips c.ctx.Path ∧
          c.status.map c.countLabels = some l then 1 else 0 := by
  by_cases hs : ps.skips c.ctx.Path
  · rw [Middleware_of_skips ps c.ctx c.next c.elapsed hs]
    exact ⟨hreg, rfl, rfl, by simp [hs]⟩
  · cases hst : resolveStatus (c.next c.ctx).2 (c.next c.ctx).1 with
    | error p =>
      rw [Middleware_of_status_panic ps c.ctx c.next c.elapsed hs p hst]
      have : c.status = none := by simp [Call.status, hst, Except.toOption]
      exact ⟨hreg, rfl, rfl, by simp [this]⟩
    | ok status =>
      have hstatus : c.status = some status := by simp [Call.status, hst, Except.toOption]
      have hsame : Call.countLabels ⟨c.ctx, c.next, c.elapsed⟩ status =
          Call.countLabels c status := rfl
      obtain ⟨x, d, q, r, hadd, hx, -, -, -, hval, -⟩ :=
        Middleware_measured_adds ps c.ctx c.next c.elapsed hs status hst
      refine ⟨hadd.registered hreg, hadd.1, hadd.2.1, ?_⟩
      rw [hadd.2.2.2.2.2.2.1 l, hstatus]
      simp only [Option.map_some', Option.some.injEq, hs, not_false_eq_true, true_and]
      by_cases hl : Call.countLabels c status = l
      · by_cases hv : l.all ValidString = true
        · have hall : (Call.countLabels c status).all ValidString = true := by rw [hl]; exact hv
          simp only [Call.countLabels, List.all_cons, List.all_nil, Bool.and_true,
            Bool.and_eq_true] at hall
          obtain ⟨-, -, hadd2⟩ := Middleware_of_measured ps c.ctx c.next c.elapsed hreg hs
            status hst hall.2.1 hall.2.2.1 hall.2.2.2
          have h1 := hadd2.2.2.2.2.2.2.1 l
          have h2 := hadd.2.2.2.2.2.2.1 l
          rw [h2, hsame] at h1
          simp only [hl, hv, and_self, if_true] at h1 ⊢
          omega
        · have hx2 : x = none := by
            rcases hx with h | h
            · exact h
            · exfalso
              apply hv
              rw [← hl, ← hsame]
              exact hval (by rw [h]; simp)
          simp [hx2, hv]
      · have hx2 : x ≠ some l := by
          rcases hx with h | h
          · rw [h]; simp
          · rw [h, hsame]
            intro e
            exact hl (Option.some.inj e)
        simp [hx2, hl]

theorem serve_reqCountValue (ps : Prometheus) (hreg : ps.Registered) (calls : List Call)
    (l : List GoString) :
    (serve ps calls).reqCountValue l = ps.reqCountValue l +
      if l.all ValidString = true then measuredWith ps l calls else 0 := by
  induction calls generalizing ps with
  | nil => simp [serve, measuredWith]
  | cons c rest ih =>
    have hstep : serve ps (c :: rest) = serve (Middleware ps c.ctx c.next c.elapsed).ps rest := by
      simp [serve]
    obtain ⟨hreg1, hp, hk, hv⟩ := Middleware_step_reqCount ps hreg c l
    rw [hstep, ih _ hreg1, measuredWith_congr ps _ hp hk, hv]
    by_cases hl : l.all ValidString = true
    · simp only [hl, true_and, if_true, measuredWith, List.filter_cons]
      by_cases hc : ¬ ps.skips c.ctx.Path ∧ c.status.map c.countLabels = some l
      · simp only [hc, not_false_eq_true, and_self, decide_True, if_true, List.length_cons]
        omega
      · simp only [hc, decide_False, if_false, Nat.add_zero, Bool.false_eq_true]
    · simp [hl]

theorem countLabels_eq_iff (c : Call) (S : Int) (M H R : GoString) :
    c.status.map c.countLabels = some [Itoa S, M, H, R] ↔
      c.status = some S ∧ c.ctx.Route.Method = M ∧ (c.next c.ctx).1.Hostname = H ∧
        (c.next c.ctx).1.Route.Path = R := by
  cases hst : c.status with
  | none => simp
  | some status =>
    simp only [Option.map_some', Option.some.injEq, Call.countLabels, List.cons.injEq, and_true]
    constructor
    · rintro ⟨h1, h2, h3, h4⟩
      exact ⟨Itoa_injective _ _ h1, h2, h3, h4⟩
    · rintro ⟨h1, h2, h3, h4⟩
      exact ⟨by rw [h1], h2, h3, h4⟩

/-- C7 as stated fails. Starting from the instruments the test's
`NewPrometheus` call registered, the sequence of one request `GET /`
answered 200 whose `Host` is the byte `FF` contains one request that is not
skipped and whose resolved status, method, host and route are 200, GET,
that host and `/`; the request-count update is refused because the host is
not valid UTF-8, and the counter at these labels reads 0 and not 1. -/
theorem requests_total_counts_counterexample :
    NewPrometheus RegisterByName [] testOptions =
        .ok (["random_request_size_bytes", "random_response_size_bytes",
          "random_request_duration_seconds", "random_requests_total"], testMiddleware) ∧
      testMiddleware.Registered ∧
      (serve testMiddleware
          [{ ctx := badHostRequest "/", next := sendStatus "/" 200,
              elapsed := 1500 }]).reqCountValue
          [Itoa 200, GoString.ofString "GET", [0xFF], GoString.ofString "/"] ≠
        ([({ ctx := badHostRequest "/", next := sendStatus "/" 200, elapsed := 1500 } :
            Call)].filter fun c =>
          decide (¬ testMiddleware.skips c.ctx.Path ∧ c.status = some 200 ∧
            c.ctx.Route.Method = GoString.ofString "GET" ∧ (c.next c.ctx).1.Hostname = [0xFF] ∧
            (c.next c.ctx).1.Route.Path = GoString.ofString "/")).length :=
  ⟨rfl, by decide, by decide⟩

/-- Starting from the instruments `NewPrometheus` has just registered, the
request-count value at labels of which one is not valid UTF-8 stays 0: no
child is created under them. -/
theorem requests_total_invalid_labels {σ : Type} (register : σ → Collector → Option σ)
    (reg reg1 : σ) (opts : List Opt) (ps0 : Prometheus)
    (hnew : NewPrometheus register reg opts = .ok (reg1, ps0)) (hreg : ps0.Registered)
    (calls : List Call) (l : List GoString) (hl : l.all ValidString = false) :
    (serve ps0 calls).reqCountValue l = 0 := by
  obtain ⟨r, p, e, -, -, -, -, hfresh⟩ := NewPrometheus_ok register reg opts
  rw [hnew] at e
  cases e
  rw [serve_reqCountValue ps0 hreg calls, (hfresh _).1, Nat.zero_add, hl]
  rfl

/-- C7, amended. Starting from the instruments `NewPrometheus` has just
registered, after every finite sequence of requests passed through
`Middleware`, the request-count value at the labels (code S, method M,
host H, url R) with M, H and R valid UTF-8 is the number of requests of the
sequence that were not skipped and whose resolved status, method, host and
matched route pattern (not raw path) are S, M, H and R. -/
theorem requests_total_counts {σ : Type} (register : σ → Collector → Option σ) (reg reg1 : σ)
    (opts : List Opt) (ps0 : Prometheus)
    (hnew : NewPrometheus register reg opts = .ok (reg1, ps0)) (hreg : ps0.Registered)
    (calls : List Call) (S : Int) (M H R : GoString) (hM : ValidString M = true)
    (hH : ValidString H = true) (hR : ValidString R = true) :
    (serve ps0 calls).reqCountValue [Itoa S, M, H, R] =
      (calls.filter fun c => decide (¬ ps0.skips c.ctx.Path ∧ c.status = some S ∧
        c.ctx.Route.Method = M ∧ (c.next c.ctx).1.Hostname = H ∧
        (c.next c.ctx).1.Route.Path = R)).length := by
  obtain ⟨r, p, e, -, -, -, -, hfresh⟩ := NewPrometheus_ok register reg opts
  rw [hnew] at e
  cases e
  have hall : [Itoa S, M, H, R].all ValidString = true := by
    simp [Itoa_valid, hM, hH, hR]
  rw [serve_reqCountValue ps0 hreg calls, (hfresh _).1, Nat.zero_add, if_pos hall, measuredWith]
  congr 2
  funext c
  simp only [countLabels_eq_iff]

theorem requests_total_counts_witness :
    NewPrometheus RegisterByName [] testOptions =
        .ok (["random_request_size_bytes", "random_response_size_bytes",
          "random_request_duration_seconds", "random_requests_total"], testMiddleware) ∧
      testMiddleware.Registered ∧ ValidString (GoString.ofString "GET") = true ∧
      ValidString (GoString.ofString "example.com") = true ∧
      ValidString (GoString.ofString "/status/:code") = true ∧
      (serve testMiddleware
          (testRound ++
            [testSkipped,
              { ctx := badHostRequest "/status/404", next := sendStatus "/status/:code" 404,
                elapsed := 650 }] ++
            testRound)).reqCountValue
          (labels ["404", "GET", "example.com", "/status/:code"]) = 2 :=
  ⟨rfl, by decide, by decide, by decide, by decide,
    (requests_total_counts RegisterByName []
      ["random_request_size_bytes", "random_response_size_bytes",
        "random_request_duration_seconds", "random_requests_total"] testOptions testMiddleware rfl
      (by decide)
      (testRound ++
        [testSkipped,
          { ctx := badHostRequest "/status/404", next := sendStatus "/status/:code" 404,
            elapsed := 650 }] ++
        testRound) 404
      (GoString.ofString "GET") (GoString.ofString "example.com")
      (GoString.ofString "/status/:code") (by decide) (by decide) (by decide))⟩

/-- The two subtests of `TestMiddleware`: after the three requests and the
scrape every counter of the test reads 1; after the skipped request, the
three requests again and the scrape it reads 2, with no child for `/skip`. -/
theorem TestMiddleware :
    (serve testMiddleware (testRound ++ [testScrape])).reqCountValue
        (labels ["200", "GET", "example.com", "/"]) = 1 ∧
      (serve testMiddleware (testRound ++ [testScrape])).reqCountValue
        (labels ["404", "GET", "example.com", "/status/:code"]) = 1 ∧
      (serve testMiddleware (testRound ++ [testScrape])).reqCountValue
        (labels ["500", "GET", "example.com", "/status/:code"]) = 1 ∧
      (serve testMiddleware (testRound ++ [testScrape])).reqSizeCount
        (labels ["500", "GET", "/status/:code"]) = 1 ∧
      (serve testMiddleware (testRound ++ [testScrape])).reqDurCount
        (labels ["500", "GET", "/status/:code"]) = 1 ∧
      (serve testMiddleware
          (testRound ++ [testScrape] ++ [testSkipped] ++ testRound ++ [testScrape])).reqCountValue
        (labels ["200", "GET", "example.com", "/"]) = 2 ∧
      (serve testMiddleware
          (testRound ++ [testScrape] ++ [testSkipped] ++ testRound ++ [testScrape])).reqCountValue
        (labels ["404", "GET", "example.com", "/status/:code"]) = 2 ∧
      (serve testMiddleware
          (testRound ++ [testScrape] ++ [testSkipped] ++ testRound ++ [testScrape])).reqDurCount
        (labels ["500", "GET", "/status/:code"]) = 2 ∧
      (serve testMiddleware
          (testRound ++ [testScrape] ++ [testSkipped] ++ testRound ++ [testScrape])).reqCountValue
        (labels ["200", "GET", "example.com", "/skip"]) = 0 := by
  decide

end prometheusfiber
